import Mathlib

/-!
Verification of the autonomous optimization engine of the tolstoy-ai-auto-optimizer
repository (`src/server/routes.ts`, with the storage writes of `src/server/storage.ts`).

The engine is embedded shallowly:

* JavaScript numbers are modelled by exact arithmetic in a linear ordered field `α`
  (instantiated at `ℚ` for executable statements and at `ℝ` where the transcendental
  library functions are needed).  The two library primitives the engine calls,
  `Math.sqrt` and `Math.exp`, are abstracted as a parameter record `SigOps α`; theorems
  either hold for every choice of these primitives or assume exactly the properties the
  IEEE-754 implementations guarantee (`sqrt 0 = 0`, …).  At `ℝ` they are instantiated
  with `Real.sqrt` and `Real.exp`.
* `parseFloat(x.toFixed(k))` is modelled by exact decimal rounding (`jsRound`).
* The storage layer (PostgreSQL via drizzle) is modelled by an explicit state
  `StorageState`; each storage call of the engine becomes a pure state transformer that
  performs the same reads and writes.
-/

namespace Tolstoy

/-- The two `Math` primitives used by `calculateStatisticalSignificance`
(`src/server/routes.ts` lines 40 and 56): `Math.sqrt` and `Math.exp`.  They are
abstracted because JavaScript does not pin their exact values (`Math.exp` is
implementation defined); theorems quantify over them or assume IEEE-documented
properties. -/
structure SigOps (α : Type) where
  sqrt : α → α
  exp : α → α

/-- Models `parseFloat(x.toFixed(k))` with `scale = 10^k`: exact decimal rounding to
`k` places, half away from zero. -/
def jsRound {α : Type} [LinearOrderedField α] [FloorRing α] (scale : α) (q : α) : α :=
  if q < 0 then -(((⌊(-q) * scale + 1 / 2⌋ : ℤ) : α) / scale)
  else ((⌊q * scale + 1 / 2⌋ : ℤ) : α) / scale

/-- The Abramowitz–Stegun normal-CDF approximation `normalCDF` nested in
`calculateStatisticalSignificance` (`src/server/routes.ts` lines 46–58), transcribed
with its exact coefficients.  The reassignment `x = Math.abs(x) / Math.sqrt(2)` of the
source becomes the new binding `x1`. -/
def normalCDF {α : Type} [LinearOrderedField α] (ops : SigOps α) (x : α) : α :=
  let a1 : α := 254829592 / 10 ^ 9
  let a2 : α := -284496736 / 10 ^ 9
  let a3 : α := 1421413741 / 10 ^ 9
  let a4 : α := -1453152027 / 10 ^ 9
  let a5 : α := 1061405429 / 10 ^ 9
  let p : α := 3275911 / 10 ^ 7
  let sign : α := if x < 0 then -1 else 1
  let x1 : α := |x| / ops.sqrt 2
  let t : α := 1 / (1 + p * x1)
  let y : α := 1 - (((((a5 * t + a4) * t) + a3) * t + a2) * t + a1) * t * ops.exp (-(x1 * x1))
  1 / 2 * (1 + sign * y)

/-- The record returned by `calculateStatisticalSignificance`. -/
structure SignificanceResult (α : Type) where
  significant : Bool
  confidence : α
  pValue : α
deriving DecidableEq, Repr

/-- The radicand of the pooled standard error in `calculateStatisticalSignificance`
(`src/server/routes.ts` lines 38–40): `pPooled * (1 - pPooled) * (1/views1 + 1/views2)`
with `pPooled = (conversions1 + conversions2) / (views1 + views2)`. -/
def seRadicand {α : Type} [LinearOrderedField α]
    (conversions1 views1 conversions2 views2 : ℕ) : α :=
  let pPooled : α := ((conversions1 : α) + (conversions2 : α)) /
    ((views1 : α) + (views2 : α))
  pPooled * (1 - pPooled) * (1 / (views1 : α) + 1 / (views2 : α))

/-- `calculateStatisticalSignificance` (`src/server/routes.ts` lines 28–68): the
two-proportion two-tailed z-test.  `parseFloat(confidence.toFixed(1))` and
`parseFloat(pValue.toFixed(4))` become `jsRound 10` and `jsRound 10000`. -/
def calculateStatisticalSignificance {α : Type} [LinearOrderedField α] [FloorRing α]
    (ops : SigOps α) (conversions1 views1 conversions2 views2 : ℕ) :
    SignificanceResult α :=
  if views1 = 0 ∨ views2 = 0 then ⟨false, 0, 1⟩
  else
    let p1 : α := (conversions1 : α) / (views1 : α)
    let p2 : α := (conversions2 : α) / (views2 : α)
    let se : α := ops.sqrt (seRadicand conversions1 views1 conversions2 views2)
    if se = 0 then ⟨false, 0, 1⟩
    else
      let z : α := |p1 - p2| / se
      let pValue : α := 2 * (1 - normalCDF ops z)
      let confidence : α := min (999 / 10) (max 0 ((1 - pValue) * 100))
      ⟨decide (pValue < 1 / 20), jsRound 10 confidence, jsRound 10000 pValue⟩

example :
    calculateStatisticalSignificance (α := ℚ) ⟨fun _ => 1, fun _ => 0⟩ 0 0 5 10 =
      ⟨false, 0, 1⟩ := by with_unfolding_all decide

example :
    (calculateStatisticalSignificance (α := ℚ) ⟨fun q => if q = 0 then 0 else 1,
      fun _ => 0⟩ 0 100 0 100) = ⟨false, 0, 1⟩ := by with_unfolding_all decide

example :
    (calculateStatisticalSignificance (α := ℚ) ⟨fun _ => 1, fun _ => 0⟩
      30 1000 90 1000).significant = true := by with_unfolding_all decide

/-! ### Data model (`src/shared/schema.ts`)

Only the columns the optimization engine reads or writes are modelled; presentation
columns (`productName`, `videoUrl`, timestamps of the test, …) are omitted.  A `Test`
carries its variants, as in the `TestWithVariants` record returned by
`storage.getTest`. -/

/-- A row of the `variants` table (engine-relevant columns).  The parent-test reference
is represented by the nesting inside `Test.variants`. -/
structure Variant where
  id : ℕ
  name : String
  variantStatus : String
  statusReason : Option String
deriving DecidableEq, Repr

/-- A row of the `tests` table (engine-relevant columns) together with its variants,
as returned by `storage.getTest`.  `killSwitchThreshold` and `autoWinThreshold` are
`real` columns, modelled as `ℚ`. -/
structure Test where
  id : ℕ
  status : String
  autonomousOptimization : Bool
  minSampleSize : ℕ
  killSwitchThreshold : ℚ
  autoWinThreshold : ℚ
  winnerVariantId : Option ℕ
  variants : List Variant
deriving DecidableEq, Repr

/-- A row of the `analytics` table: one cumulative snapshot.  Timestamps are
milliseconds since the epoch (`interactions` is never read by the engine and is
omitted). -/
structure AnalyticsPoint where
  testId : ℕ
  variantId : ℕ
  timestamp : ℤ
  views : ℕ
  conversions : ℕ
deriving DecidableEq, Repr

/-- A row of the `ai_activity_log` table.  `metadata` is the jsonb object, modelled as
its key/number pairs in insertion order. -/
structure ActivityLogEntry where
  testId : ℕ
  variantId : Option ℕ
  action : String
  message : String
  metadata : List (String × ℚ)
  timestamp : ℤ
deriving DecidableEq, Repr

/-- The storage state the engine reads and writes: the three tables it touches
(`tests` with their `variants`, `analytics`, `ai_activity_log`). -/
structure StorageState where
  tests : List Test
  analytics : List AnalyticsPoint
  log : List ActivityLogEntry
deriving DecidableEq, Repr

/-! ### Storage operations (`src/server/storage.ts`) -/

/-- `storage.getTest` (`src/server/storage.ts` lines 44–54): the test row with the
given id, with its variants. -/
def getTest (st : StorageState) (id : ℕ) : Option Test :=
  st.tests.find? (fun t => t.id = id)

/-- The per-variant update performed by `storage.updateVariantStatus`
(`src/server/storage.ts` lines 294–303): set `variantStatus` and `statusReason` on the
variant rows whose `id` matches. -/
def updV (vid : ℕ) (s : String) (r : Option String) (v : Variant) : Variant :=
  if v.id = vid then { v with variantStatus := s, statusReason := r } else v

/-- Applies a row-level variant update inside a test record. -/
def mapVariants (f : Variant → Variant) (t : Test) : Test :=
  { t with variants := t.variants.map f }

/-- `storage.updateVariantStatus` (`src/server/storage.ts` lines 294–303). -/
def updateVariantStatus (st : StorageState) (vid : ℕ) (s : String) (r : Option String) :
    StorageState :=
  { st with tests := st.tests.map (mapVariants (updV vid s r)) }

/-- `storage.updateTestWinner` (`src/server/storage.ts` lines 166–175): set
`winnerVariantId` and move the test status to `winner_applied`. -/
def updateTestWinner (st : StorageState) (testId vid : ℕ) : StorageState :=
  { st with tests := st.tests.map (fun t =>
      if t.id = testId then { t with winnerVariantId := some vid, status := "winner_applied" }
      else t) }

/-- `storage.createActivityLogEntry` (`src/server/storage.ts` lines 286–291):
append-only insert. -/
def createActivityLogEntry (st : StorageState) (e : ActivityLogEntry) : StorageState :=
  { st with log := st.log ++ [e] }

/-- The length of the rolling one-month window of `storage.getAnalytics(testId, '1m')`
(`src/server/storage.ts` line 111), in milliseconds. -/
def monthMs : ℤ := 30 * 24 * 60 * 60 * 1000

/-- The composite read the evaluator performs per variant: `storage.getAnalytics(testId,
'1m')` (rows of the test with `timestamp ≥ now - 30 days`, ascending by timestamp)
followed by `variantData = analyticsData.filter(a => a.variantId === variant.id)` and
`latestData = variantData[variantData.length - 1]` (`src/server/routes.ts` lines
81–86): the variant's snapshot with the greatest timestamp inside the window, later
row winning ties (stable sort).  The intermediate time bucketing of `getAnalytics`
keeps the latest point of each bucket and so never drops a variant's latest point;
it does not affect this value. -/
def latestSnapshot (st : StorageState) (now : ℤ) (testId variantId : ℕ) :
    Option AnalyticsPoint :=
  (st.analytics.filter (fun a =>
      a.testId = testId ∧ a.variantId = variantId ∧ now - monthMs ≤ a.timestamp)).foldl
    (fun acc a => match acc with
      | none => some a
      | some b => if b.timestamp ≤ a.timestamp then some a else some b) none

/-! ### Per-variant performance (`src/server/routes.ts` lines 18–25 and 84–99) -/

/-- The `VariantPerformance` record computed per variant (`src/server/routes.ts`
lines 18–25). -/
structure VariantPerformance where
  variantId : ℕ
  name : String
  views : ℕ
  conversions : ℕ
  conversionRate : ℚ
  status : String
deriving DecidableEq, Repr

/-- The body of the `test.variants.map` of `evaluateTestPerformance`
(`src/server/routes.ts` lines 84–99): take the latest snapshot in the window
(`latestData?.views || 0` is `0` when there is none) and derive the conversion rate
in percent. -/
def perfOf (st : StorageState) (now : ℤ) (testId : ℕ) (v : Variant) : VariantPerformance :=
  let latestData := latestSnapshot st now testId v.id
  let views : ℕ := match latestData with | some d => d.views | none => 0
  let conversions : ℕ := match latestData with | some d => d.conversions | none => 0
  let conversionRate : ℚ := if 0 < views then ((conversions : ℚ) / (views : ℚ)) * 100 else 0
  { variantId := v.id, name := v.name, views := views, conversions := conversions,
    conversionRate := conversionRate, status := v.variantStatus }

/-- `variantPerformance` (`src/server/routes.ts` line 84). -/
def variantPerformanceOf (st : StorageState) (now : ℤ) (testId : ℕ) (test : Test) :
    List VariantPerformance :=
  test.variants.map (perfOf st now testId)

/-- `activeVariants` (`src/server/routes.ts` line 102). -/
def activeOf (perfs : List VariantPerformance) : List VariantPerformance :=
  perfs.filter (fun v => v.status = "active")

/-- `avgConversionRate` (`src/server/routes.ts` lines 116–117): the mean over the
active variants of the sum built by `reduce`. -/
def avgConversionRateOf (active : List VariantPerformance) : ℚ :=
  (active.foldl (fun sum v => sum + v.conversionRate) 0) / (active.length : ℚ)

/-- The fallback record for the unreachable empty-list cases below (the evaluator
only computes `control` and `bestPerformer` after establishing at least two active
variants). -/
def defaultPerf : VariantPerformance :=
  { variantId := 0, name := "", views := 0, conversions := 0, conversionRate := 0,
    status := "" }

/-- `control = variantPerformance[0]` (`src/server/routes.ts` line 125): the first
variant of the test. -/
def controlOf (perfs : List VariantPerformance) : VariantPerformance :=
  perfs.headD defaultPerf

/-- `bestPerformer` (`src/server/routes.ts` lines 126–128): `reduce` without initial
value, keeping the first maximum of the conversion rate. -/
def bestPerformerOf (active : List VariantPerformance) : VariantPerformance :=
  match active with
  | [] => defaultPerf
  | h :: t => t.foldl (fun best curr =>
      if best.conversionRate < curr.conversionRate then curr else best) h

/-- `underperformancePercent` (`src/server/routes.ts` line 140). -/
def underperfOf (avg : ℚ) (v : VariantPerformance) : ℚ :=
  ((avg - v.conversionRate) / avg) * 100

/-- `uplift` (`src/server/routes.ts` line 167). -/
def upliftOf (control best : VariantPerformance) : ℚ :=
  ((best.conversionRate - control.conversionRate) / control.conversionRate) * 100

/-! ### Number formatting in messages

JavaScript renders `x.toFixed(1)` and template-literal numbers into the reason and
message strings.  `toFixed1` is exact one-decimal rounding (half away from zero);
`jsNumberToString` prints a rational exactly in decimal when its denominator divides a
power of ten (which is the JS shortest-round-trip output for such values; other values
do not occur in the states considered here). -/

/-- Models `x.toFixed(1)`. -/
def toFixed1 (q : ℚ) : String :=
  let n : ℤ := if q < 0 then -⌊(-q) * 10 + 1 / 2⌋ else ⌊q * 10 + 1 / 2⌋
  (if n < 0 then "-" else "") ++ toString (n.natAbs / 10) ++ "." ++ toString (n.natAbs % 10)

/-- The least `k < 10` with `d ∣ 10 ^ k`, if any. -/
def decExponent (d : ℕ) : Option ℕ :=
  (List.range 10).find? (fun k => 10 ^ k % d = 0)

/-- Zero-pads a digit string on the left to length `k`. -/
def padLeftZeros (k : ℕ) (s : String) : String :=
  String.mk (List.replicate (k - s.length) '0') ++ s

/-- Models JavaScript template-literal stringification of a number, for numbers whose
exact value has a finite decimal expansion. -/
def jsNumberToString (q : ℚ) : String :=
  match decExponent q.den with
  | some 0 => toString q.num
  | some k =>
      let scaled : ℕ := q.num.natAbs * ((10 ^ k) / q.den)
      (if q.num < 0 then "-" else "") ++ toString (scaled / 10 ^ k) ++ "." ++
        padLeftZeros k (toString (scaled % 10 ^ k))
  | none => toString q.num ++ "/" ++ toString q.den

/-- The `reason` string of a kill-switch disablement (`src/server/routes.ts`
line 144). -/
def killReason (up threshold : ℚ) : String :=
  "Disabled due to " ++ toFixed1 up ++ "% underperformance vs average (threshold: " ++
    jsNumberToString threshold ++ "%)"

/-- The log `message` of a kill-switch disablement (`src/server/routes.ts`
line 152). -/
def killMessage (name : String) (up : ℚ) : String :=
  "AI disabled " ++ name ++ " due to " ++ toFixed1 up ++
    "% drop in conversion rate below average."

/-- The `reason` string of a winner promotion (`src/server/routes.ts` line 177). -/
def winnerReason (uplift confidence : ℚ) : String :=
  "System promoted as winner with " ++ toFixed1 uplift ++ "% uplift vs control (" ++
    jsNumberToString confidence ++ "% confidence)"

/-- The log `message` of a winner promotion (`src/server/routes.ts` line 186). -/
def winnerMessage (name : String) (uplift confidence : ℚ) : String :=
  "AI promoted " ++ name ++ " as the winner with " ++ toFixed1 uplift ++
    "% conversion uplift and " ++ jsNumberToString confidence ++ "% statistical confidence."

/-! ### The two actions and the evaluator (`src/server/routes.ts` lines 71–198) -/

/-- The activity-log entry appended for a kill-switch disablement
(`src/server/routes.ts` lines 148–160). -/
def killSwitchEntry (testId : ℕ) (now : ℤ) (threshold avg : ℚ) (w : VariantPerformance) :
    ActivityLogEntry :=
  { testId := testId, variantId := some w.variantId, action := "disabled_variant",
    message := killMessage w.name (underperfOf avg w),
    metadata := [("variantConversionRate", w.conversionRate),
                 ("averageConversionRate", avg),
                 ("threshold", threshold),
                 ("underperformance", underperfOf avg w)],
    timestamp := now }

/-- One iteration of the kill-switch loop (`src/server/routes.ts` lines 137–161):
skip the control, otherwise disable and log when the underperformance reaches the
threshold. -/
def killSwitchStep (testId : ℕ) (now : ℤ) (threshold avg : ℚ) (controlId : ℕ)
    (st : StorageState) (v : VariantPerformance) : StorageState :=
  if v.variantId = controlId then st
  else if threshold ≤ underperfOf avg v then
    createActivityLogEntry
      (updateVariantStatus st v.variantId "disabled"
        (some (killReason (underperfOf avg v) threshold)))
      (killSwitchEntry testId now threshold avg v)
  else st

/-- ACTION A, the kill-switch loop (`src/server/routes.ts` lines 135–162), iterating
over the variants that were active at entry. -/
def killSwitchPass (testId : ℕ) (now : ℤ) (threshold avg : ℚ) (controlId : ℕ)
    (active : List VariantPerformance) (st : StorageState) : StorageState :=
  active.foldl (killSwitchStep testId now threshold avg controlId) st

/-- The activity-log entry appended for a winner promotion (`src/server/routes.ts`
lines 182–195). -/
def winnerEntry (testId : ℕ) (now : ℤ) (threshold : ℚ) (control best : VariantPerformance)
    (confidence : ℚ) : ActivityLogEntry :=
  { testId := testId, variantId := some best.variantId, action := "promoted_winner",
    message := winnerMessage best.name (upliftOf control best) confidence,
    metadata := [("winnerConversionRate", best.conversionRate),
                 ("controlConversionRate", control.conversionRate),
                 ("uplift", upliftOf control best),
                 ("confidence", confidence),
                 ("threshold", threshold)],
    timestamp := now }

/-- The significance record the auto-win check consumes (`src/server/routes.ts`
lines 170–173): estimator on `(control.conversions, control.views, best.conversions,
best.views)`. -/
def autoWinSignificance (ops : SigOps ℚ) (control best : VariantPerformance) :
    SignificanceResult ℚ :=
  calculateStatisticalSignificance ops control.conversions control.views
    best.conversions best.views

/-- Whether the auto-win promotion fires (`src/server/routes.ts` line 175):
`uplift >= test.autoWinThreshold && significance.significant`. -/
def autoWinFires (ops : SigOps ℚ) (threshold : ℚ) (control best : VariantPerformance) :
    Prop :=
  threshold ≤ upliftOf control best ∧
    (autoWinSignificance ops control best).significant = true

instance (ops : SigOps ℚ) (threshold : ℚ) (control best : VariantPerformance) :
    Decidable (autoWinFires ops threshold control best) := by
  unfold autoWinFires; infer_instance

/-- ACTION B, the fast track to winner (`src/server/routes.ts` lines 164–197): when
the best performer is not the control, promote it when the uplift reaches
`autoWinThreshold` and the z-test is significant. -/
def autoWinPass (ops : SigOps ℚ) (testId : ℕ) (now : ℤ) (threshold : ℚ)
    (control best : VariantPerformance) (st : StorageState) : StorageState :=
  if control.variantId = best.variantId then st
  else if autoWinFires ops threshold control best then
    createActivityLogEntry
      (updateTestWinner
        (updateVariantStatus st best.variantId "winner"
          (some (winnerReason (upliftOf control best)
            (autoWinSignificance ops control best).confidence)))
        testId best.variantId)
      (winnerEntry testId now threshold control best
        (autoWinSignificance ops control best).confidence)
  else st

/-- `evaluateTestPerformance` (`src/server/routes.ts` lines 71–198): the autonomous
evaluation of one test.  Each early `return` of the source becomes an `if` branch
yielding the unchanged state; the local bindings `variantPerformance`,
`activeVariants`, `avgConversionRate`, `control` and `bestPerformer` of the source are
the named definitions above, written out at each use. -/
def evaluateTestPerformance (ops : SigOps ℚ) (now : ℤ) (testId : ℕ)
    (st : StorageState) : StorageState :=
  (getTest st testId).elim st (fun test =>
    if test.autonomousOptimization = false ∨ test.status ≠ "running" then st
    else if (activeOf (variantPerformanceOf st now testId test)).length < 2 then st
    else if ¬ (∀ v ∈ activeOf (variantPerformanceOf st now testId test),
        test.minSampleSize ≤ v.views) then st
    else if avgConversionRateOf (activeOf (variantPerformanceOf st now testId test)) ≤
        1 / 1000 then st
    else if (controlOf (variantPerformanceOf st now testId test)).conversionRate ≤
        1 / 1000 then st
    else
      autoWinPass ops testId now test.autoWinThreshold
        (controlOf (variantPerformanceOf st now testId test))
        (bestPerformerOf (activeOf (variantPerformanceOf st now testId test)))
        (killSwitchPass testId now test.killSwitchThreshold
          (avgConversionRateOf (activeOf (variantPerformanceOf st now testId test)))
          (controlOf (variantPerformanceOf st now testId test)).variantId
          (activeOf (variantPerformanceOf st now testId test)) st))

/-! ### Derived descriptions of the two passes

`killV`, `killQualifies` and `killEntries` give a closed form of the kill-switch
fold, proved equal to it in `killSwitchPass_eq`; the claim proofs reason over this
form. -/

/-- Whether the kill switch fires for the active variant `w`
(`src/server/routes.ts` lines 138 and 142): not the control, and underperformance at
or above the threshold. -/
def killQualifies (threshold avg : ℚ) (cid : ℕ) (w : VariantPerformance) : Prop :=
  w.variantId ≠ cid ∧ threshold ≤ underperfOf avg w

instance (threshold avg : ℚ) (cid : ℕ) (w : VariantPerformance) :
    Decidable (killQualifies threshold avg cid w) := by
  unfold killQualifies; infer_instance

/-- The cumulative effect of the kill-switch loop on one variant row. -/
def killV (threshold avg : ℚ) (cid : ℕ) (active : List VariantPerformance)
    (v : Variant) : Variant :=
  active.foldl (fun v w =>
    if w.variantId = cid then v
    else if threshold ≤ underperfOf avg w then
      updV w.variantId "disabled" (some (killReason (underperfOf avg w) threshold)) v
    else v) v

/-- The log entries appended by the kill-switch loop, in iteration order. -/
def killEntries (testId : ℕ) (now : ℤ) (threshold avg : ℚ) (cid : ℕ)
    (active : List VariantPerformance) : List ActivityLogEntry :=
  (active.filter (fun w => killQualifies threshold avg cid w)).map
    (killSwitchEntry testId now threshold avg)

theorem killSwitchPass_eq (testId : ℕ) (now : ℤ) (threshold avg : ℚ) (cid : ℕ)
    (active : List VariantPerformance) (st : StorageState) :
    killSwitchPass testId now threshold avg cid active st =
      { tests := st.tests.map (mapVariants (killV threshold avg cid active)),
        analytics := st.analytics,
        log := st.log ++ killEntries testId now threshold avg cid active } := by
  induction active generalizing st with
  | nil =>
      have h : st.tests.map (mapVariants (killV threshold avg cid [])) = st.tests := by
        conv_rhs => rw [← List.map_id st.tests]
        apply List.map_congr_left
        intro t _
        have hv : t.variants.map (killV threshold avg cid []) = t.variants := by
          conv_rhs => rw [← List.map_id t.variants]
          apply List.map_congr_left
          intro v _
          simp [killV]
        simp [mapVariants, hv]
      simp [killSwitchPass, killEntries, h]
  | cons w A ih =>
      have hstep : killSwitchPass testId now threshold avg cid (w :: A) st =
          killSwitchPass testId now threshold avg cid A
            (killSwitchStep testId now threshold avg cid st w) := rfl
      rw [hstep, ih]
      by_cases hcid : w.variantId = cid
      · have h1 : killSwitchStep testId now threshold avg cid st w = st := by
          simp [killSwitchStep, hcid]
        have h2 : killV threshold avg cid (w :: A) = killV threshold avg cid A := by
          funext v
          simp [killV, List.foldl_cons, hcid]
        have h3 : killEntries testId now threshold avg cid (w :: A) =
            killEntries testId now threshold avg cid A := by
          simp [killEntries, List.filter_cons, killQualifies, hcid]
        rw [h1, h2, h3]
      · by_cases hth : threshold ≤ underperfOf avg w
        · have h1 : killSwitchStep testId now threshold avg cid st w =
              createActivityLogEntry
                (updateVariantStatus st w.variantId "disabled"
                  (some (killReason (underperfOf avg w) threshold)))
                (killSwitchEntry testId now threshold avg w) := by
            simp [killSwitchStep, hcid, hth]
          have h2 : ∀ t : Test,
              mapVariants (killV threshold avg cid A)
                (mapVariants (updV w.variantId "disabled"
                  (some (killReason (underperfOf avg w) threshold))) t) =
              mapVariants (killV threshold avg cid (w :: A)) t := by
            intro t
            simp only [mapVariants, List.map_map]
            congr 1
            apply List.map_congr_left
            intro v _
            simp [Function.comp, killV, List.foldl_cons, hcid, hth]
          have h3 : killEntries testId now threshold avg cid (w :: A) =
              killSwitchEntry testId now threshold avg w ::
                killEntries testId now threshold avg cid A := by
            simp [killEntries, List.filter_cons, killQualifies, hcid, hth]
          rw [h1, h3]
          simp only [createActivityLogEntry, updateVariantStatus, List.map_map]
          congr 1
          · apply List.map_congr_left
            intro t _
            exact h2 t
          · simp
        · have h1 : killSwitchStep testId now threshold avg cid st w = st := by
            simp [killSwitchStep, hcid, hth]
          have h2 : killV threshold avg cid (w :: A) = killV threshold avg cid A := by
            funext v
            simp [killV, List.foldl_cons, hcid, hth]
          have h3 : killEntries testId now threshold avg cid (w :: A) =
              killEntries testId now threshold avg cid A := by
            simp [killEntries, List.filter_cons, killQualifies, hcid, hth]
          rw [h1, h2, h3]

/-! ### Basic lemmas about the storage operations -/

theorem updV_id (vid : ℕ) (s : String) (r : Option String) (v : Variant) :
    (updV vid s r v).id = v.id := by
  unfold updV; split_ifs <;> rfl

theorem updV_of_ne (vid : ℕ) (s : String) (r : Option String) (v : Variant)
    (h : v.id ≠ vid) : updV vid s r v = v := by
  unfold updV; rw [if_neg h]

theorem mapVariants_id (f : Variant → Variant) (t : Test) : (mapVariants f t).id = t.id := rfl

theorem getTest_some_id (st : StorageState) (tid : ℕ) (t : Test)
    (h : getTest st tid = some t) : t.id = tid := by
  have := List.find?_some h
  simpa using this

theorem find?Test_map (l : List Test) (g : Variant → Variant) (tid : ℕ) :
    (l.map (mapVariants g)).find? (fun t => t.id = tid) =
      (l.find? (fun t => t.id = tid)).map (mapVariants g) := by
  rw [List.find?_map]
  rfl

theorem getTest_updateVariantStatus (st : StorageState) (vid : ℕ) (s : String)
    (r : Option String) (tid : ℕ) :
    getTest (updateVariantStatus st vid s r) tid =
      (getTest st tid).map (mapVariants (updV vid s r)) := by
  unfold getTest updateVariantStatus
  exact find?Test_map st.tests (updV vid s r) tid

theorem getTest_updateTestWinner_self (st : StorageState) (tid vid : ℕ) (t : Test)
    (h : getTest st tid = some t) :
    getTest (updateTestWinner st tid vid) tid =
      some { t with winnerVariantId := some vid, status := "winner_applied" } := by
  have hid : t.id = tid := getTest_some_id st tid t h
  unfold getTest updateTestWinner at *
  rw [List.find?_map]
  have hp : ((fun t : Test => decide (t.id = tid)) ∘ (fun t : Test =>
      if t.id = tid then { t with winnerVariantId := some vid, status := "winner_applied" }
      else t)) = (fun t : Test => decide (t.id = tid)) := by
    funext u
    by_cases hu : u.id = tid <;> simp [hu]
  rw [hp, h]
  simp [hid]

theorem getTest_createActivityLogEntry (st : StorageState) (e : ActivityLogEntry)
    (tid : ℕ) : getTest (createActivityLogEntry st e) tid = getTest st tid := rfl

/-! ### Lemmas about the cumulative kill-switch transform `killV` -/

theorem killV_cons (threshold avg : ℚ) (cid : ℕ) (w : VariantPerformance)
    (A : List VariantPerformance) (v : Variant) :
    killV threshold avg cid (w :: A) v =
      killV threshold avg cid A
        (if w.variantId = cid then v
         else if threshold ≤ underperfOf avg w then
           updV w.variantId "disabled" (some (killReason (underperfOf avg w) threshold)) v
         else v) := rfl

theorem killV_id (threshold avg : ℚ) (cid : ℕ) (A : List VariantPerformance)
    (v : Variant) : (killV threshold avg cid A v).id = v.id := by
  induction A generalizing v with
  | nil => rfl
  | cons w A ih =>
      rw [killV_cons, ih]
      split_ifs <;> simp [updV_id]

theorem killV_eq_self (threshold avg : ℚ) (cid : ℕ) (A : List VariantPerformance)
    (v : Variant)
    (h : ∀ w ∈ A, killQualifies threshold avg cid w → w.variantId ≠ v.id) :
    killV threshold avg cid A v = v := by
  induction A generalizing v with
  | nil => rfl
  | cons w A ih =>
      rw [killV_cons]
      by_cases hcid : w.variantId = cid
      · rw [if_pos hcid]
        exact ih v (fun u hu hq => h u (List.mem_cons_of_mem w hu) hq)
      · rw [if_neg hcid]
        by_cases hth : threshold ≤ underperfOf avg w
        · rw [if_pos hth]
          have hne : w.variantId ≠ v.id := h w (List.mem_cons_self w A) ⟨hcid, hth⟩
          rw [updV_of_ne _ _ _ _ (fun hv => hne hv.symm)]
          exact ih v (fun u hu hq => h u (List.mem_cons_of_mem w hu) hq)
        · rw [if_neg hth]
          exact ih v (fun u hu hq => h u (List.mem_cons_of_mem w hu) hq)

theorem killV_disabled (threshold avg : ℚ) (cid : ℕ) (A : List VariantPerformance)
    (w : VariantPerformance) (v : Variant)
    (hN : (A.map (fun u => u.variantId)).Nodup) (hw : w ∈ A)
    (hq : killQualifies threshold avg cid w) (hv : v.id = w.variantId) :
    killV threshold avg cid A v =
      { v with variantStatus := "disabled",
               statusReason := some (killReason (underperfOf avg w) threshold) } := by
  induction A generalizing v with
  | nil => exact absurd hw (List.not_mem_nil w)
  | cons u A ih =>
      rw [List.map_cons, List.nodup_cons] at hN
      rcases List.mem_cons.mp hw with hwu | hwA
      · subst hwu
        rw [killV_cons, if_neg hq.1, if_pos hq.2]
        have hupd : updV w.variantId "disabled"
            (some (killReason (underperfOf avg w) threshold)) v =
            { v with variantStatus := "disabled",
                     statusReason := some (killReason (underperfOf avg w) threshold) } := by
          unfold updV; rw [if_pos hv]
        rw [hupd]
        apply killV_eq_self
        intro u hu _
        show u.variantId ≠ v.id
        rw [hv]
        intro heq
        exact hN.1 (heq ▸ List.mem_map_of_mem _ hu)
      · have hne : u.variantId ≠ w.variantId := by
          intro heq
          exact hN.1 (heq ▸ List.mem_map_of_mem _ hwA)
        rw [killV_cons]
        have hstep : (if u.variantId = cid then v
            else if threshold ≤ underperfOf avg u then
              updV u.variantId "disabled"
                (some (killReason (underperfOf avg u) threshold)) v
            else v) = v := by
          split_ifs with h1 h2
          · rfl
          · exact updV_of_ne _ _ _ _ (fun hv2 => hne (hv ▸ hv2).symm)
          · rfl
        rw [hstep]
        exact ih v hN.2 hwA hv

/-! ### The guard conjunction of `evaluateTestPerformance`

`guardsPass` is the conjunction of (the positive forms of) the five in-function
early-exit checks of `src/server/routes.ts` lines 76–133; together with the existence
of the test (`getTest st testId = some test`) these are the six preconditions of an
acting evaluation pass. -/

def guardsPass (now : ℤ) (testId : ℕ) (st : StorageState) (test : Test) : Prop :=
  test.autonomousOptimization = true ∧
  test.status = "running" ∧
  2 ≤ (activeOf (variantPerformanceOf st now testId test)).length ∧
  (∀ v ∈ activeOf (variantPerformanceOf st now testId test),
    test.minSampleSize ≤ v.views) ∧
  1 / 1000 < avgConversionRateOf (activeOf (variantPerformanceOf st now testId test)) ∧
  1 / 1000 < (controlOf (variantPerformanceOf st now testId test)).conversionRate

instance (now : ℤ) (testId : ℕ) (st : StorageState) (test : Test) :
    Decidable (guardsPass now testId st test) := by
  unfold guardsPass; infer_instance

theorem evaluate_eq_of_guardsPass (ops : SigOps ℚ) (now : ℤ) (testId : ℕ)
    (st : StorageState) (test : Test)
    (hget : getTest st testId = some test)
    (hg : guardsPass now testId st test) :
    evaluateTestPerformance ops now testId st =
      autoWinPass ops testId now test.autoWinThreshold
        (controlOf (variantPerformanceOf st now testId test))
        (bestPerformerOf (activeOf (variantPerformanceOf st now testId test)))
        (killSwitchPass testId now test.killSwitchThreshold
          (avgConversionRateOf (activeOf (variantPerformanceOf st now testId test)))
          (controlOf (variantPerformanceOf st now testId test)).variantId
          (activeOf (variantPerformanceOf st now testId test)) st) := by
  obtain ⟨h1, h2, h3, h4, h5, h6⟩ := hg
  unfold evaluateTestPerformance
  rw [hget, Option.elim_some]
  rw [if_neg (by simp [h1, h2])]
  rw [if_neg (by omega)]
  rw [if_neg (by simpa using h4)]
  rw [if_neg (not_le.mpr h5)]
  rw [if_neg (not_le.mpr h6)]

theorem evaluate_eq_self_of_guardFail (ops : SigOps ℚ) (now : ℤ) (testId : ℕ)
    (st : StorageState)
    (hfail : ∀ test, getTest st testId = some test → ¬ guardsPass now testId st test) :
    evaluateTestPerformance ops now testId st = st := by
  unfold evaluateTestPerformance
  cases hget : getTest st testId with
  | none => rfl
  | some test =>
      rw [Option.elim_some]
      have hng := hfail test hget
      by_cases c1 : test.autonomousOptimization = false ∨ test.status ≠ "running"
      · rw [if_pos c1]
      rw [if_neg c1]
      by_cases c2 : (activeOf (variantPerformanceOf st now testId test)).length < 2
      · rw [if_pos c2]
      rw [if_neg c2]
      by_cases c3 : ¬ (∀ v ∈ activeOf (variantPerformanceOf st now testId test),
          test.minSampleSize ≤ v.views)
      · rw [if_pos c3]
      rw [if_neg c3]
      by_cases c4 : avgConversionRateOf
          (activeOf (variantPerformanceOf st now testId test)) ≤ 1 / 1000
      · rw [if_pos c4]
      rw [if_neg c4]
      by_cases c5 : (controlOf (variantPerformanceOf st now testId test)).conversionRate ≤
          1 / 1000
      · rw [if_pos c5]
      rw [if_neg c5]
      exfalso
      apply hng
      push_neg at c1
      refine ⟨by simpa using c1.1, by simpa using c1.2, by omega, by simpa using c3,
        not_le.mp c4, not_le.mp c5⟩

/-! ### State observations after each pass -/

theorem getTest_killSwitchPass (testId : ℕ) (now : ℤ) (threshold avg : ℚ) (cid : ℕ)
    (active : List VariantPerformance) (st : StorageState) (tid : ℕ) :
    getTest (killSwitchPass testId now threshold avg cid active st) tid =
      (getTest st tid).map (mapVariants (killV threshold avg cid active)) := by
  rw [killSwitchPass_eq]
  exact find?Test_map st.tests (killV threshold avg cid active) tid

theorem log_killSwitchPass (testId : ℕ) (now : ℤ) (threshold avg : ℚ) (cid : ℕ)
    (active : List VariantPerformance) (st : StorageState) :
    (killSwitchPass testId now threshold avg cid active st).log =
      st.log ++ killEntries testId now threshold avg cid active := by
  rw [killSwitchPass_eq]

theorem killEntries_action (testId : ℕ) (now : ℤ) (threshold avg : ℚ) (cid : ℕ)
    (active : List VariantPerformance) (e : ActivityLogEntry)
    (he : e ∈ killEntries testId now threshold avg cid active) :
    e.action = "disabled_variant" := by
  unfold killEntries at he
  obtain ⟨w, _, rfl⟩ := List.mem_map.mp he
  rfl

theorem autoWinPass_eq_promote (ops : SigOps ℚ) (testId : ℕ) (now : ℤ) (threshold : ℚ)
    (control best : VariantPerformance) (st : StorageState)
    (hne : control.variantId ≠ best.variantId)
    (hc : autoWinFires ops threshold control best) :
    autoWinPass ops testId now threshold control best st =
      createActivityLogEntry
        (updateTestWinner
          (updateVariantStatus st best.variantId "winner"
            (some (winnerReason (upliftOf control best)
              (autoWinSignificance ops control best).confidence)))
          testId best.variantId)
        (winnerEntry testId now threshold control best
          (autoWinSignificance ops control best).confidence) := by
  unfold autoWinPass
  rw [if_neg hne, if_pos hc]

theorem autoWinPass_eq_self (ops : SigOps ℚ) (testId : ℕ) (now : ℤ) (threshold : ℚ)
    (control best : VariantPerformance) (st : StorageState)
    (h : control.variantId = best.variantId ∨ ¬ autoWinFires ops threshold control best) :
    autoWinPass ops testId now threshold control best st = st := by
  unfold autoWinPass
  rcases h with h | h
  · rw [if_pos h]
  · by_cases hne : control.variantId = best.variantId
    · rw [if_pos hne]
    · rw [if_neg hne, if_neg h]

/-! ### Facts about the performance records -/

theorem perfOf_variantId (st : StorageState) (now : ℤ) (testId : ℕ) (v : Variant) :
    (perfOf st now testId v).variantId = v.id := rfl

theorem perfOf_status (st : StorageState) (now : ℤ) (testId : ℕ) (v : Variant) :
    (perfOf st now testId v).status = v.variantStatus := rfl

theorem controlOf_head (st : StorageState) (now : ℤ) (testId : ℕ) (test : Test)
    (v0 : Variant) (h : test.variants.head? = some v0) :
    controlOf (variantPerformanceOf st now testId test) = perfOf st now testId v0 := by
  unfold controlOf variantPerformanceOf
  cases tv : test.variants with
  | nil => rw [tv] at h; simp at h
  | cons a l =>
      rw [tv] at h
      simp only [List.head?_cons, Option.some.injEq] at h
      subst h
      rfl

theorem mem_activeOf (st : StorageState) (now : ℤ) (testId : ℕ) (test : Test)
    (w : VariantPerformance)
    (hw : w ∈ activeOf (variantPerformanceOf st now testId test)) :
    ∃ v ∈ test.variants, w = perfOf st now testId v ∧ v.variantStatus = "active" := by
  unfold activeOf at hw
  obtain ⟨hmem, hstat⟩ := List.mem_filter.mp hw
  unfold variantPerformanceOf at hmem
  obtain ⟨v, hv, rfl⟩ := List.mem_map.mp hmem
  refine ⟨v, hv, rfl, ?_⟩
  simpa [perfOf_status] using hstat

theorem activeOf_nodup_ids (st : StorageState) (now : ℤ) (testId : ℕ) (test : Test)
    (hN : (test.variants.map (fun v => v.id)).Nodup) :
    ((activeOf (variantPerformanceOf st now testId test)).map
      (fun w => w.variantId)).Nodup := by
  have hsub : (activeOf (variantPerformanceOf st now testId test)).Sublist
      (variantPerformanceOf st now testId test) := List.filter_sublist _
  have hsub2 : ((activeOf (variantPerformanceOf st now testId test)).map
      (fun w => w.variantId)).Sublist
      ((variantPerformanceOf st now testId test).map (fun w => w.variantId)) :=
    List.Sublist.map _ hsub
  apply List.Nodup.sublist hsub2
  unfold variantPerformanceOf
  rw [List.map_map]
  exact hN

/-! ### Claim C3: guard failure means no write -/

/-- C3: for every input state, if any of the six preconditions fails — the test does
not exist; `autonomousOptimization` is false or the test status is not `running`;
fewer than 2 variants are active; some active variant's latest views are below
`minSampleSize`; the average conversion rate over active variants is ≤ 0.001
(percent); or the control's conversion rate is ≤ 0.001 (percent) — then
`evaluateTestPerformance` returns the state unchanged: no variant status change, no
test winner or status change, and no activity-log entry. -/
theorem evaluate_noop_of_precondition_failure (ops : SigOps ℚ) (now : ℤ) (testId : ℕ)
    (st : StorageState)
    (h : getTest st testId = none ∨
      ∃ test, getTest st testId = some test ∧
        (test.autonomousOptimization = false ∨ test.status ≠ "running" ∨
         (activeOf (variantPerformanceOf st now testId test)).length < 2 ∨
         (∃ v ∈ activeOf (variantPerformanceOf st now testId test),
           v.views < test.minSampleSize) ∨
         avgConversionRateOf (activeOf (variantPerformanceOf st now testId test)) ≤
           1 / 1000 ∨
         (controlOf (variantPerformanceOf st now testId test)).conversionRate ≤
           1 / 1000)) :
    evaluateTestPerformance ops now testId st = st := by
  apply evaluate_eq_self_of_guardFail
  intro test hget hg
  obtain ⟨g1, g2, g3, g4, g5, g6⟩ := hg
  rcases h with hnone | ⟨test', hget', hbad⟩
  · rw [hget] at hnone; exact Option.noConfusion hnone
  · rw [hget] at hget'
    injection hget' with he
    subst he
    rcases hbad with hb | hb | hb | ⟨v, hv, hb⟩ | hb | hb
    · rw [g1] at hb; exact Bool.noConfusion hb
    · exact hb g2
    · omega
    · have := g4 v hv; omega
    · exact absurd hb (not_le.mpr g5)
    · exact absurd hb (not_le.mpr g6)

/-- A `SigOps ℚ` instance whose z-test is always significant on the non-degenerate
path (`exp` constantly `0` makes the approximated p-value `0`, as the IEEE `Math.exp`
does for very large z-scores). -/
def opsSig : SigOps ℚ := ⟨fun _ => 1, fun _ => 0⟩

/-- A `SigOps ℚ` instance with `sqrt 0 = 0` (as `Math.sqrt` guarantees). -/
def opsZero : SigOps ℚ := ⟨fun q => if q ≤ 0 then 0 else 1, fun _ => 1⟩

/-- A test with autonomous optimization disabled. -/
def offTest : Test where
  id := 1
  status := "running"
  autonomousOptimization := false
  minSampleSize := 100
  killSwitchThreshold := 30
  autoWinThreshold := 50
  winnerVariantId := none
  variants := []

/-- A state containing only `offTest`. -/
def offState : StorageState := { tests := [offTest], analytics := [], log := [] }

theorem evaluate_noop_of_precondition_failure_witness :
    evaluateTestPerformance opsSig 0 1 offState = offState :=
  evaluate_noop_of_precondition_failure opsSig 0 1 offState
    (Or.inr ⟨offTest, rfl, Or.inl rfl⟩)

/-! ### Claim C5: degenerate guards of the significance estimator -/

/-- C5: for all non-negative integer inputs, if `views1 = 0` or `views2 = 0`, or the
pooled standard error (the square root of `seRadicand`) equals 0 — e.g. pooled rate
exactly 0 or 1 — then the estimator returns exactly
`{significant := false, confidence := 0, pValue := 1}`; in particular
`significance(0,0,5,10)` and `significance(0,100,0,100)` both return that record
(the latter assuming only `sqrt 0 = 0`, which `Math.sqrt` guarantees).  In this total
model no division by zero, `NaN` or `Infinity` can arise; the guards return before
the divisions of the source. -/
theorem significance_degenerate_guard {α : Type} [LinearOrderedField α] [FloorRing α]
    (ops : SigOps α) (hsqrt0 : ops.sqrt 0 = 0)
    (conversions1 views1 conversions2 views2 : ℕ)
    (h : views1 = 0 ∨ views2 = 0 ∨
      ops.sqrt (seRadicand (α := α) conversions1 views1 conversions2 views2) = 0) :
    calculateStatisticalSignificance ops conversions1 views1 conversions2 views2 =
        ⟨false, 0, 1⟩ ∧
      calculateStatisticalSignificance ops 0 0 5 10 = ⟨false, 0, 1⟩ ∧
      calculateStatisticalSignificance ops 0 100 0 100 = ⟨false, 0, 1⟩ := by
  refine ⟨?_, ?_, ?_⟩
  · by_cases hb : views1 = 0
    · simp [calculateStatisticalSignificance, hb]
    · by_cases hd : views2 = 0
      · simp [calculateStatisticalSignificance, hd]
      · have hse : ops.sqrt (seRadicand (α := α) conversions1 views1 conversions2
            views2) = 0 := by tauto
        simp [calculateStatisticalSignificance, hb, hd, hse]
  · simp [calculateStatisticalSignificance]
  · have hrad : seRadicand (α := α) 0 100 0 100 = 0 := by
      unfold seRadicand; norm_num
    simp [calculateStatisticalSignificance, hrad, hsqrt0]

theorem significance_degenerate_guard_witness :
    calculateStatisticalSignificance opsZero 0 0 5 10 =
        ⟨false, 0, 1⟩ ∧
      calculateStatisticalSignificance opsZero 0 0 5 10 = ⟨false, 0, 1⟩ ∧
      calculateStatisticalSignificance opsZero 0 100 0 100 = ⟨false, 0, 1⟩ :=
  significance_degenerate_guard opsZero (by simp [opsZero]) 0 0 5 10 (Or.inl rfl)

/-! ### Claim C9: swapping the two samples -/

theorem seRadicand_swap {α : Type} [LinearOrderedField α] (a b c d : ℕ) :
    seRadicand (α := α) a b c d = seRadicand (α := α) c d a b := by
  unfold seRadicand
  ring

theorem calcSig_swap {α : Type} [LinearOrderedField α] [FloorRing α]
    (ops : SigOps α) (a b c d : ℕ) :
    calculateStatisticalSignificance ops a b c d =
      calculateStatisticalSignificance ops c d a b := by
  by_cases hb : b = 0
  · simp [calculateStatisticalSignificance, hb]
  · by_cases hd : d = 0
    · simp [calculateStatisticalSignificance, hd]
    · simp only [calculateStatisticalSignificance, hb, hd, false_or, or_false,
        if_false]
      rw [seRadicand_swap a b c d, abs_sub_comm ((a : α) / b) ((c : α) / d)]

/-- C9: for all non-negative integer inputs, the estimator returns the same `pValue`
and the same `significant` flag when the two samples are swapped: the z-score uses
`|p1 - p2|` and the pooled quantities are symmetric.  This holds for every choice of
the `sqrt`/`exp` primitives, since they are applied to identical arguments on both
sides. -/
theorem significance_swap_invariant {α : Type} [LinearOrderedField α] [FloorRing α]
    (ops : SigOps α) (a b c d : ℕ) :
    (calculateStatisticalSignificance ops a b c d).pValue =
        (calculateStatisticalSignificance ops c d a b).pValue ∧
      (calculateStatisticalSignificance ops a b c d).significant =
        (calculateStatisticalSignificance ops c d a b).significant := by
  rw [calcSig_swap ops a b c d]
  exact ⟨rfl, rfl⟩

/-! ### Claim C4: the control variant is never touched -/

/-- The control variant row of a test: the first variant by creation order. -/
def controlVariantOf (st : StorageState) (tid : ℕ) : Option Variant :=
  (getTest st tid).bind (fun t => t.variants.head?)

/-- C4: for every input state, the evaluation leaves the control variant row (the
test's first variant) completely unchanged — in particular it never sets the control
to `disabled`, regardless of the control's conversion rate relative to the average:
the kill-switch loop skips the control's id and the winner write targets a best
performer whose id differs from the control's. -/
theorem control_variant_preserved (ops : SigOps ℚ) (now : ℤ) (testId : ℕ)
    (st : StorageState) :
    controlVariantOf (evaluateTestPerformance ops now testId st) testId =
      controlVariantOf st testId := by
  cases hget : getTest st testId with
  | none =>
      have hst : evaluateTestPerformance ops now testId st = st := by
        unfold evaluateTestPerformance; rw [hget]; rfl
      rw [hst]
  | some test =>
    by_cases hg : guardsPass now testId st test
    case neg =>
      have hst : evaluateTestPerformance ops now testId st = st := by
        apply evaluate_eq_self_of_guardFail
        intro t' hget'
        rw [hget] at hget'
        injection hget' with he
        subst he
        exact hg
      rw [hst]
    case pos =>
      rw [evaluate_eq_of_guardsPass ops now testId st test hget hg]
      have g3 := hg.2.2.1
      -- the test has a first variant
      obtain ⟨v0, hv0⟩ : ∃ v0, test.variants.head? = some v0 := by
        cases tv : test.variants with
        | nil =>
            exfalso
            have hP : variantPerformanceOf st now testId test = [] := by
              unfold variantPerformanceOf; rw [tv]; rfl
            have : activeOf (variantPerformanceOf st now testId test) = [] := by
              rw [hP]; rfl
            rw [this] at g3; simp at g3
        | cons a l => exact ⟨a, rfl⟩
      have hctrl : controlOf (variantPerformanceOf st now testId test) =
          perfOf st now testId v0 := controlOf_head st now testId test v0 hv0
      have hcid : (controlOf (variantPerformanceOf st now testId test)).variantId =
          v0.id := by rw [hctrl]; rfl
      have hrhs : controlVariantOf st testId = some v0 := by
        unfold controlVariantOf; rw [hget]; simpa using hv0
      -- the kill-switch transform leaves the first variant unchanged
      have hgk : killV test.killSwitchThreshold
          (avgConversionRateOf (activeOf (variantPerformanceOf st now testId test)))
          (controlOf (variantPerformanceOf st now testId test)).variantId
          (activeOf (variantPerformanceOf st now testId test)) v0 = v0 := by
        apply killV_eq_self
        intro w _ hq
        have := hq.1
        rwa [hcid] at this
      have hget1 : getTest (killSwitchPass testId now test.killSwitchThreshold
          (avgConversionRateOf (activeOf (variantPerformanceOf st now testId test)))
          (controlOf (variantPerformanceOf st now testId test)).variantId
          (activeOf (variantPerformanceOf st now testId test)) st) testId =
          some (mapVariants (killV test.killSwitchThreshold
            (avgConversionRateOf (activeOf (variantPerformanceOf st now testId test)))
            (controlOf (variantPerformanceOf st now testId test)).variantId
            (activeOf (variantPerformanceOf st now testId test))) test) := by
        rw [getTest_killSwitchPass, hget]; rfl
      have hhead1 : (mapVariants (killV test.killSwitchThreshold
          (avgConversionRateOf (activeOf (variantPerformanceOf st now testId test)))
          (controlOf (variantPerformanceOf st now testId test)).variantId
          (activeOf (variantPerformanceOf st now testId test))) test).variants.head? =
          some v0 := by
        show (test.variants.map _).head? = some v0
        rw [List.head?_map, hv0]
        simp [hgk]
      by_cases hne : (controlOf (variantPerformanceOf st now testId test)).variantId =
          (bestPerformerOf (activeOf (variantPerformanceOf st now testId test))).variantId
      · rw [autoWinPass_eq_self _ _ _ _ _ _ _ (Or.inl hne), hrhs]
        unfold controlVariantOf
        rw [hget1]
        simpa using hhead1
      · by_cases hfires : autoWinFires ops test.autoWinThreshold
            (controlOf (variantPerformanceOf st now testId test))
            (bestPerformerOf (activeOf (variantPerformanceOf st now testId test)))
        · rw [autoWinPass_eq_promote _ _ _ _ _ _ _ hne hfires]
          have hv0bid : v0.id ≠ (bestPerformerOf
              (activeOf (variantPerformanceOf st now testId test))).variantId := by
            rw [← hcid]; exact hne
          rw [hrhs]
          unfold controlVariantOf
          rw [getTest_createActivityLogEntry]
          rw [getTest_updateTestWinner_self _ _ _ _
            (by rw [getTest_updateVariantStatus, hget1]; rfl)]
          show ((test.variants.map _).map _).head? = some v0
          rw [List.head?_map, List.head?_map, hv0]
          simp [hgk, updV_of_ne _ _ _ _ hv0bid]
        · rw [autoWinPass_eq_self _ _ _ _ _ _ _ (Or.inr hfires), hrhs]
          unfold controlVariantOf
          rw [hget1]
          simpa using hhead1

/-! ### Claim C7: re-running after a terminal transition

The original claim fails on the code: a state that already contains a `disabled`
variant while the test is still `running` is not a fixpoint of evaluation in general,
because a re-run recomputes the average over the now smaller active set and can
disable a further variant (`reState0` below: rates 20%, 1%, 10%, threshold 30%; the
first run disables the 1% variant, the second run disables the 10% variant, whose
underperformance against the new average 15% is 33.3% ≥ 30%).  What does hold is the
no-op after the test itself left `running` (in particular after `winner_applied`) or
fewer than two variants remain active. -/

/-- First variant (control) of the re-evaluation scenario. -/
def reVariantA : Variant := { id := 1, name := "Variant A", variantStatus := "active", statusReason := none }

/-- Second variant of the re-evaluation scenario. -/
def reVariantB : Variant := { id := 2, name := "Variant B", variantStatus := "active", statusReason := none }

/-- Third variant of the re-evaluation scenario. -/
def reVariantC : Variant := { id := 3, name := "Variant C", variantStatus := "active", statusReason := none }

/-- A cumulative snapshot of the re-evaluation scenario. -/
def rePoint (vid views conv : ℕ) : AnalyticsPoint :=
  { testId := 1, variantId := vid, timestamp := 500, views := views, conversions := conv }

/-- The running test of the re-evaluation scenario. -/
def reTest : Test where
  id := 1
  status := "running"
  autonomousOptimization := true
  minSampleSize := 100
  killSwitchThreshold := 30
  autoWinThreshold := 50
  winnerVariantId := none
  variants := [reVariantA, reVariantB, reVariantC]

/-- The initial state of the re-evaluation scenario: rates 20%, 1%, 10%. -/
def reState0 : StorageState where
  tests := [reTest]
  analytics := [rePoint 1 100 20, rePoint 2 100 1, rePoint 3 100 10]
  log := []

/-- C7 counterexample: after one evaluation of `reState0` a variant is `disabled`
while the test status is still `running`, and re-running the evaluation against the
same (unchanged) analytics changes the state again (it disables a further variant). -/
theorem evaluate_rerun_not_noop :
    ((getTest (evaluateTestPerformance opsSig 1000 1 reState0) 1).map
        (fun t => (t.status, t.variants.map (fun v => v.variantStatus)))) =
      some ("running", ["active", "disabled", "active"]) ∧
    evaluateTestPerformance opsSig 1000 1
        (evaluateTestPerformance opsSig 1000 1 reState0) ≠
      evaluateTestPerformance opsSig 1000 1 reState0 := by
  with_unfolding_all decide

/-- C7 amended: once the test status is no longer `running` (in particular
`winner_applied`), or autonomous optimization is off, or fewer than two variants
remain active, re-running the evaluation produces no state change at all.  (A state
that merely contains a `disabled` or `winner` variant while the test is still
`running` with two or more active variants is not in general a fixpoint: the average
is recomputed over the remaining active set, see the counterexample.) -/
theorem evaluate_noop_of_terminal (ops : SigOps ℚ) (now : ℤ) (testId : ℕ)
    (st : StorageState) (test : Test)
    (hget : getTest st testId = some test)
    (h : test.status ≠ "running" ∨ test.autonomousOptimization = false ∨
      (activeOf (variantPerformanceOf st now testId test)).length < 2) :
    evaluateTestPerformance ops now testId st = st := by
  apply evaluate_eq_self_of_guardFail
  intro t' hget'
  rw [hget] at hget'
  injection hget' with he
  subst he
  intro hg
  obtain ⟨g1, g2, g3, _, _, _⟩ := hg
  rcases h with hb | hb | hb
  · exact hb g2
  · rw [g1] at hb; exact Bool.noConfusion hb
  · omega

/-- A test already in `winner_applied` state. -/
def doneTest : Test where
  id := 1
  status := "winner_applied"
  autonomousOptimization := true
  minSampleSize := 100
  killSwitchThreshold := 30
  autoWinThreshold := 50
  winnerVariantId := some 2
  variants := [reVariantA, { id := 2, name := "Variant B", variantStatus := "winner", statusReason := none }]

/-- A state containing only `doneTest`. -/
def doneState : StorageState := { tests := [doneTest], analytics := [], log := [] }

theorem evaluate_noop_of_terminal_witness :
    evaluateTestPerformance opsSig 0 1 doneState = doneState :=
  evaluate_noop_of_terminal opsSig 0 1 doneState doneTest rfl
    (Or.inl (by with_unfolding_all decide))

/-! ### Claim C10: a variant with no snapshot in the window -/

/-- C10: a variant with no analytics snapshot in the one-month evaluation window is
assigned `views = 0`, `conversions = 0` and conversion rate `0` by the evaluation;
consequently, for every `minSampleSize ≥ 1`, if such a variant is active the
minimum-sample gate fails and the evaluation performs no write. -/
theorem missing_snapshot_gates (ops : SigOps ℚ) (now : ℤ) (testId : ℕ)
    (st : StorageState) (test : Test) (v : Variant)
    (hget : getTest st testId = some test)
    (hv : v ∈ test.variants)
    (hsn : latestSnapshot st now testId v.id = none) :
    perfOf st now testId v =
      { variantId := v.id, name := v.name, views := 0, conversions := 0,
        conversionRate := 0, status := v.variantStatus } ∧
    (v.variantStatus = "active" → 1 ≤ test.minSampleSize →
      evaluateTestPerformance ops now testId st = st) := by
  constructor
  · simp [perfOf, hsn]
  · intro hact hmin
    apply evaluate_eq_self_of_guardFail
    intro t' hget'
    rw [hget] at hget'
    injection hget' with he
    subst he
    intro hg
    obtain ⟨_, _, _, g4, _, _⟩ := hg
    have hmem : perfOf st now testId v ∈
        activeOf (variantPerformanceOf st now testId test) := by
      unfold activeOf variantPerformanceOf
      apply List.mem_filter.mpr
      refine ⟨List.mem_map_of_mem _ hv, ?_⟩
      simp [perfOf_status, hact]
    have hge := g4 _ hmem
    have hviews : (perfOf st now testId v).views = 0 := by simp [perfOf, hsn]
    rw [hviews] at hge
    omega

/-- First variant of the missing-snapshot scenario (has data). -/
def gapVariantA : Variant := { id := 1, name := "Variant A", variantStatus := "active", statusReason := none }

/-- Second variant of the missing-snapshot scenario (no snapshot at all). -/
def gapVariantB : Variant := { id := 2, name := "Variant B", variantStatus := "active", statusReason := none }

/-- The running test of the missing-snapshot scenario. -/
def gapTest : Test where
  id := 1
  status := "running"
  autonomousOptimization := true
  minSampleSize := 100
  killSwitchThreshold := 30
  autoWinThreshold := 50
  winnerVariantId := none
  variants := [gapVariantA, gapVariantB]

/-- The state of the missing-snapshot scenario: only variant 1 has analytics. -/
def gapState : StorageState where
  tests := [gapTest]
  analytics := [{ testId := 1, variantId := 1, timestamp := 500, views := 1000, conversions := 30 }]
  log := []

theorem missing_snapshot_gates_witness :
    perfOf gapState 1000 1 gapVariantB =
      { variantId := 2, name := "Variant B", views := 0, conversions := 0,
        conversionRate := 0, status := "active" } ∧
    evaluateTestPerformance opsSig 1000 1 gapState = gapState :=
  ⟨(missing_snapshot_gates opsSig 1000 1 gapState gapTest gapVariantB rfl
      (by with_unfolding_all decide) rfl).1,
    (missing_snapshot_gates opsSig 1000 1 gapState gapTest gapVariantB rfl
      (by with_unfolding_all decide) rfl).2 rfl (by norm_num [gapTest])⟩

/-! ### Generic list helpers for id-keyed rows -/

theorem filter_key_singleton {α β : Type} [DecidableEq β] (key : α → β) (l : List α)
    (hN : (l.map key).Nodup) (a : α) (ha : a ∈ l) :
    l.filter (fun u => key u = key a) = [a] := by
  induction l with
  | nil => exact absurd ha (List.not_mem_nil a)
  | cons x l ih =>
      rw [List.map_cons, List.nodup_cons] at hN
      rcases List.mem_cons.mp ha with rfl | hal
      · rw [List.filter_cons, if_pos (by simp)]
        have hnil : l.filter (fun u => key u = key a) = [] := by
          apply List.filter_eq_nil_iff.mpr
          intro u hu hk
          exact hN.1 ((of_decide_eq_true hk) ▸ List.mem_map_of_mem key hu)
        rw [hnil]
      · have hxa : key x ≠ key a := fun he => hN.1 (he ▸ List.mem_map_of_mem key hal)
        rw [List.filter_cons, if_neg (by simpa using hxa)]
        exact ih hN.2 hal

theorem filter_key_and {α β : Type} [DecidableEq β] (key : α → β) (p : α → Bool)
    (l : List α) (hN : (l.map key).Nodup) (a : α) (ha : a ∈ l) :
    l.filter (fun u => decide (key u = key a) && p u) =
      if p a then [a] else [] := by
  induction l with
  | nil => exact absurd ha (List.not_mem_nil a)
  | cons x l ih =>
      rw [List.map_cons, List.nodup_cons] at hN
      rcases List.mem_cons.mp ha with rfl | hal
      · have hnil : l.filter (fun u => decide (key u = key a) && p u) = [] := by
          apply List.filter_eq_nil_iff.mpr
          intro u hu hk
          have := (Bool.and_eq_true _ _).mp hk
          exact hN.1 ((of_decide_eq_true this.1) ▸ List.mem_map_of_mem key hu)
        cases hp : p a with
        | true => rw [List.filter_cons, if_pos (by simp [hp]), hnil, if_pos rfl]
        | false => rw [List.filter_cons, if_neg (by simp [hp]), hnil, if_neg (by simp [hp])]
      · have hxa : key x ≠ key a := fun he => hN.1 (he ▸ List.mem_map_of_mem key hal)
        rw [List.filter_cons, if_neg (by simp [hxa])]
        exact ih hN.2 hal

/-! ### The state between the two actions, and projection lemmas -/

/-- The state after ACTION A (the kill-switch loop) and before ACTION B (the auto-win
check) of an evaluation pass on `test`. -/
def killStageOf (now : ℤ) (testId : ℕ) (st : StorageState) (test : Test) :
    StorageState :=
  killSwitchPass testId now test.killSwitchThreshold
    (avgConversionRateOf (activeOf (variantPerformanceOf st now testId test)))
    (controlOf (variantPerformanceOf st now testId test)).variantId
    (activeOf (variantPerformanceOf st now testId test)) st

theorem evaluate_eq_killStage_autoWin (ops : SigOps ℚ) (now : ℤ) (testId : ℕ)
    (st : StorageState) (test : Test)
    (hget : getTest st testId = some test)
    (hg : guardsPass now testId st test) :
    evaluateTestPerformance ops now testId st =
      autoWinPass ops testId now test.autoWinThreshold
        (controlOf (variantPerformanceOf st now testId test))
        (bestPerformerOf (activeOf (variantPerformanceOf st now testId test)))
        (killStageOf now testId st test) :=
  evaluate_eq_of_guardsPass ops now testId st test hget hg

/-- The id-keyed row projection of the kill stage: the rows with a given id in the
evaluated test are the original rows transformed by `killV`. -/
theorem killStage_filter_proj {γ : Type} (now : ℤ) (testId : ℕ) (st : StorageState)
    (test : Test) (hget : getTest st testId = some test) (wid : ℕ)
    (f : Variant → γ) :
    (getTest (killStageOf now testId st test) testId).map (fun t =>
        (t.variants.filter (fun v => v.id = wid)).map f) =
      some ((test.variants.filter (fun v => v.id = wid)).map (fun v =>
        f (killV test.killSwitchThreshold
          (avgConversionRateOf (activeOf (variantPerformanceOf st now testId test)))
          (controlOf (variantPerformanceOf st now testId test)).variantId
          (activeOf (variantPerformanceOf st now testId test)) v))) := by
  unfold killStageOf
  rw [getTest_killSwitchPass, hget]
  show some _ = some _
  congr 1
  show ((test.variants.map _).filter (fun v => v.id = wid)).map f = _
  rw [List.filter_map]
  have hfe : test.variants.filter ((fun v => decide (v.id = wid)) ∘
      killV test.killSwitchThreshold
        (avgConversionRateOf (activeOf (variantPerformanceOf st now testId test)))
        (controlOf (variantPerformanceOf st now testId test)).variantId
        (activeOf (variantPerformanceOf st now testId test))) =
      test.variants.filter (fun v => v.id = wid) :=
    List.filter_congr (fun v _ => by simp [Function.comp, killV_id])
  rw [hfe, List.map_map]
  rfl

/-- The id-keyed row projection is unchanged by the auto-win pass for every id other
than the promoted best performer's. -/
theorem autoWinPass_filter_proj {γ : Type} (ops : SigOps ℚ) (testId : ℕ) (now : ℤ)
    (threshold : ℚ) (control best : VariantPerformance) (st1 : StorageState)
    (t1 : Test) (hget1 : getTest st1 testId = some t1) (wid : ℕ)
    (hne : wid ≠ best.variantId) (f : Variant → γ) :
    (getTest (autoWinPass ops testId now threshold control best st1) testId).map
        (fun t => (t.variants.filter (fun v => v.id = wid)).map f) =
      some ((t1.variants.filter (fun v => v.id = wid)).map f) := by
  by_cases hcb : control.variantId = best.variantId
  · rw [autoWinPass_eq_self _ _ _ _ _ _ _ (Or.inl hcb), hget1]
    rfl
  · by_cases hfires : autoWinFires ops threshold control best
    · rw [autoWinPass_eq_promote _ _ _ _ _ _ _ hcb hfires]
      rw [getTest_createActivityLogEntry]
      rw [getTest_updateTestWinner_self _ _ _ _
        (by rw [getTest_updateVariantStatus, hget1]; rfl)]
      show some _ = some _
      congr 1
      show ((t1.variants.map _).filter (fun v => v.id = wid)).map f = _
      rw [List.filter_map]
      have hfe : t1.variants.filter ((fun v => decide (v.id = wid)) ∘
          updV best.variantId "winner"
            (some (winnerReason (upliftOf control best)
              (autoWinSignificance ops control best).confidence))) =
          t1.variants.filter (fun v => v.id = wid) :=
        List.filter_congr (fun v _ => by simp [Function.comp, updV_id])
      rw [hfe, List.map_map]
      apply List.map_congr_left
      intro v hv
      have hvid : v.id = wid := of_decide_eq_true (List.mem_filter.mp hv).2
      show f (updV best.variantId "winner" _ v) = f v
      rw [updV_of_ne _ _ _ _ (hvid ▸ hne)]
    · rw [autoWinPass_eq_self _ _ _ _ _ _ _ (Or.inr hfires), hget1]
      rfl

/-- The log of the auto-win pass: unchanged, or exactly one `promoted_winner` entry
appended. -/
theorem autoWinPass_log_cases (ops : SigOps ℚ) (testId : ℕ) (now : ℤ) (threshold : ℚ)
    (control best : VariantPerformance) (st1 : StorageState) :
    (autoWinPass ops testId now threshold control best st1).log = st1.log ∨
      (autoWinPass ops testId now threshold control best st1).log =
        st1.log ++ [winnerEntry testId now threshold control best
          (autoWinSignificance ops control best).confidence] := by
  by_cases hcb : control.variantId = best.variantId
  · left; rw [autoWinPass_eq_self _ _ _ _ _ _ _ (Or.inl hcb)]
  · by_cases hfires : autoWinFires ops threshold control best
    · right
      rw [autoWinPass_eq_promote _ _ _ _ _ _ _ hcb hfires]
      rfl
    · left; rw [autoWinPass_eq_self _ _ _ _ _ _ _ (Or.inr hfires)]

/-- Entries appended by the kill-switch pass for a given variant id: exactly the
`killSwitchEntry` of the qualifying active record with that id, if any. -/
theorem killEntries_filter_for (testId : ℕ) (now : ℤ) (threshold avg : ℚ) (cid : ℕ)
    (A : List VariantPerformance) (hNA : (A.map (fun u => u.variantId)).Nodup)
    (w : VariantPerformance) (hw : w ∈ A) :
    (killEntries testId now threshold avg cid A).filter
        (fun e => e.action = "disabled_variant" ∧ e.variantId = some w.variantId) =
      if killQualifies threshold avg cid w then
        [killSwitchEntry testId now threshold avg w]
      else [] := by
  unfold killEntries
  rw [List.filter_map]
  rw [List.filter_congr (fun u _ => by
    show _ = decide (u.variantId = w.variantId)
    simp [Function.comp, killSwitchEntry])]
  rw [List.filter_filter]
  rw [filter_key_and (fun u => u.variantId)
    (fun u => decide (killQualifies threshold avg cid u)) A hNA w hw]
  by_cases hq : killQualifies threshold avg cid w
  · rw [if_pos (decide_eq_true hq), if_pos hq]
    rfl
  · rw [if_neg (by simpa using hq), if_neg hq]
    rfl

/-- The id-keyed row projection of a per-variant transform that preserves ids. -/
theorem mapVariants_filter_proj {γ : Type} (g : Variant → Variant)
    (hgid : ∀ v, (g v).id = v.id) (t : Test) (wid : ℕ) (f : Variant → γ) :
    ((mapVariants g t).variants.filter (fun v => v.id = wid)).map f =
      (t.variants.filter (fun v => v.id = wid)).map (fun v => f (g v)) := by
  show ((t.variants.map g).filter _).map f = _
  rw [List.filter_map]
  have hfe : t.variants.filter ((fun v => decide (v.id = wid)) ∘ g) =
      t.variants.filter (fun v => v.id = wid) :=
    List.filter_congr (fun v _ => by simp [Function.comp, hgid])
  rw [hfe, List.map_map]
  rfl

/-! ### Claim C2: the kill switch fires exactly at or above the threshold -/

/-- C2: in an evaluation pass that passes all guards, for an active non-control
record `w` with `underperformance = (avg - rate)/avg · 100`:

* if `underperformance ≥ killSwitchThreshold` (inclusive boundary), the kill-switch
  stage sets the variant row with `w`'s id to `disabled` with the exact reason string,
  exactly one `disabled_variant` log entry for that id — with metadata
  `{variantConversionRate, averageConversionRate, threshold, underperformance}`
  (the fields of `killSwitchEntry`) — is appended by the whole pass, and (unless `w`
  is the promoted best performer) the row is still `disabled` in the final state;
* otherwise the row is unchanged by the kill-switch stage, no `disabled_variant`
  entry for that id is appended, and (unless `w` is the best performer) the row is
  still `active` in the final state.

Every active non-control variant is treated this way in the same pass — the theorem
holds for each such `w` with no early exit after the first disablement. -/
theorem killSwitch_fires_iff_threshold (ops : SigOps ℚ) (now : ℤ) (testId : ℕ)
    (st : StorageState) (test : Test) (w : VariantPerformance)
    (hget : getTest st testId = some test)
    (hg : guardsPass now testId st test)
    (hN : (test.variants.map (fun v => v.id)).Nodup)
    (hw : w ∈ activeOf (variantPerformanceOf st now testId test))
    (hnc : w.variantId ≠
      (controlOf (variantPerformanceOf st now testId test)).variantId) :
    (test.killSwitchThreshold ≤ underperfOf (avgConversionRateOf (activeOf
        (variantPerformanceOf st now testId test))) w →
      (getTest (killStageOf now testId st test) testId).map (fun t =>
          (t.variants.filter (fun v => v.id = w.variantId)).map
            (fun v => (v.variantStatus, v.statusReason))) =
        some [("disabled",
          some (killReason (underperfOf (avgConversionRateOf (activeOf
            (variantPerformanceOf st now testId test))) w)
            test.killSwitchThreshold))] ∧
      (evaluateTestPerformance ops now testId st).log.filter (fun e =>
          e.action = "disabled_variant" ∧ e.variantId = some w.variantId) =
        st.log.filter (fun e =>
          e.action = "disabled_variant" ∧ e.variantId = some w.variantId) ++
          [killSwitchEntry testId now test.killSwitchThreshold
            (avgConversionRateOf (activeOf
              (variantPerformanceOf st now testId test))) w] ∧
      (w.variantId ≠ (bestPerformerOf (activeOf
          (variantPerformanceOf st now testId test))).variantId →
        (getTest (evaluateTestPerformance ops now testId st) testId).map (fun t =>
            (t.variants.filter (fun v => v.id = w.variantId)).map
              (fun v => (v.variantStatus, v.statusReason))) =
          some [("disabled",
            some (killReason (underperfOf (avgConversionRateOf (activeOf
              (variantPerformanceOf st now testId test))) w)
              test.killSwitchThreshold))])) ∧
    (¬ test.killSwitchThreshold ≤ underperfOf (avgConversionRateOf (activeOf
        (variantPerformanceOf st now testId test))) w →
      (getTest (killStageOf now testId st test) testId).map (fun t =>
          (t.variants.filter (fun v => v.id = w.variantId)).map
            (fun v => (v.variantStatus, v.statusReason))) =
        some ((test.variants.filter (fun v => v.id = w.variantId)).map
          (fun v => (v.variantStatus, v.statusReason))) ∧
      (evaluateTestPerformance ops now testId st).log.filter (fun e =>
          e.action = "disabled_variant" ∧ e.variantId = some w.variantId) =
        st.log.filter (fun e =>
          e.action = "disabled_variant" ∧ e.variantId = some w.variantId) ∧
      (w.variantId ≠ (bestPerformerOf (activeOf
          (variantPerformanceOf st now testId test))).variantId →
        (getTest (evaluateTestPerformance ops now testId st) testId).map (fun t =>
            (t.variants.filter (fun v => v.id = w.variantId)).map
              (fun v => v.variantStatus)) =
          some ["active"])) := by
  obtain ⟨vv, hvv, hwperf, hvact⟩ := mem_activeOf st now testId test w hw
  have hwid : w.variantId = vv.id := by rw [hwperf]; rfl
  have hNA := activeOf_nodup_ids st now testId test hN
  have hforig : test.variants.filter (fun v => v.id = w.variantId) = [vv] := by
    rw [hwid]
    exact filter_key_singleton (fun v : Variant => v.id) test.variants hN vv hvv
  have hkv_pos : test.killSwitchThreshold ≤ underperfOf (avgConversionRateOf (activeOf
      (variantPerformanceOf st now testId test))) w →
      killV test.killSwitchThreshold
        (avgConversionRateOf (activeOf (variantPerformanceOf st now testId test)))
        (controlOf (variantPerformanceOf st now testId test)).variantId
        (activeOf (variantPerformanceOf st now testId test)) vv =
      { vv with variantStatus := "disabled",
                statusReason := some (killReason (underperfOf (avgConversionRateOf
                  (activeOf (variantPerformanceOf st now testId test))) w)
                  test.killSwitchThreshold) } :=
    fun hth => killV_disabled _ _ _ _ w vv hNA hw ⟨hnc, hth⟩ hwid.symm
  have hkv_neg : ¬ test.killSwitchThreshold ≤ underperfOf (avgConversionRateOf
      (activeOf (variantPerformanceOf st now testId test))) w →
      killV test.killSwitchThreshold
        (avgConversionRateOf (activeOf (variantPerformanceOf st now testId test)))
        (controlOf (variantPerformanceOf st now testId test)).variantId
        (activeOf (variantPerformanceOf st now testId test)) vv = vv := by
    intro hth
    apply killV_eq_self
    intro u hu hq heq
    have hu_w : u = w :=
      List.inj_on_of_nodup_map hNA hu hw (by rw [heq, hwid])
    exact hth (hu_w ▸ hq.2)
  have hgetks : getTest (killStageOf now testId st test) testId =
      some (mapVariants (killV test.killSwitchThreshold
        (avgConversionRateOf (activeOf (variantPerformanceOf st now testId test)))
        (controlOf (variantPerformanceOf st now testId test)).variantId
        (activeOf (variantPerformanceOf st now testId test))) test) := by
    unfold killStageOf
    rw [getTest_killSwitchPass, hget]
    rfl
  have hlogfin : (evaluateTestPerformance ops now testId st).log.filter (fun e =>
      e.action = "disabled_variant" ∧ e.variantId = some w.variantId) =
      st.log.filter (fun e =>
        e.action = "disabled_variant" ∧ e.variantId = some w.variantId) ++
      (if killQualifies test.killSwitchThreshold
          (avgConversionRateOf (activeOf (variantPerformanceOf st now testId test)))
          (controlOf (variantPerformanceOf st now testId test)).variantId w then
        [killSwitchEntry testId now test.killSwitchThreshold
          (avgConversionRateOf (activeOf (variantPerformanceOf st now testId test))) w]
      else []) := by
    rw [evaluate_eq_killStage_autoWin ops now testId st test hget hg]
    have hks : (killStageOf now testId st test).log.filter (fun e =>
        e.action = "disabled_variant" ∧ e.variantId = some w.variantId) =
        st.log.filter (fun e =>
          e.action = "disabled_variant" ∧ e.variantId = some w.variantId) ++
        (if killQualifies test.killSwitchThreshold
            (avgConversionRateOf (activeOf (variantPerformanceOf st now testId test)))
            (controlOf (variantPerformanceOf st now testId test)).variantId w then
          [killSwitchEntry testId now test.killSwitchThreshold
            (avgConversionRateOf (activeOf
              (variantPerformanceOf st now testId test))) w]
        else []) := by
      unfold killStageOf
      rw [log_killSwitchPass, List.filter_append]
      rw [killEntries_filter_for _ _ _ _ _ _ hNA w hw]
    rcases autoWinPass_log_cases ops testId now test.autoWinThreshold
        (controlOf (variantPerformanceOf st now testId test))
        (bestPerformerOf (activeOf (variantPerformanceOf st now testId test)))
        (killStageOf now testId st test) with hlog | hlog
    · rw [hlog, hks]
    · rw [hlog, List.filter_append, hks]
      have hwentry : List.filter (fun e =>
          decide (e.action = "disabled_variant" ∧ e.variantId = some w.variantId))
          [winnerEntry testId now test.autoWinThreshold
            (controlOf (variantPerformanceOf st now testId test))
            (bestPerformerOf (activeOf (variantPerformanceOf st now testId test)))
            (autoWinSignificance ops
              (controlOf (variantPerformanceOf st now testId test))
              (bestPerformerOf (activeOf
                (variantPerformanceOf st now testId test)))).confidence] = [] := by
        simp [winnerEntry]
      rw [hwentry, List.append_nil]
  constructor
  · intro hth
    refine ⟨?_, ?_, ?_⟩
    · rw [killStage_filter_proj now testId st test hget w.variantId
        (fun v => (v.variantStatus, v.statusReason)), hforig]
      simp [hkv_pos hth]
    · rw [hlogfin, if_pos ⟨hnc, hth⟩]
    · intro hbid
      rw [evaluate_eq_killStage_autoWin ops now testId st test hget hg]
      rw [autoWinPass_filter_proj ops testId now test.autoWinThreshold
        (controlOf (variantPerformanceOf st now testId test))
        (bestPerformerOf (activeOf (variantPerformanceOf st now testId test)))
        (killStageOf now testId st test) _ hgetks w.variantId hbid
        (fun v => (v.variantStatus, v.statusReason))]
      rw [mapVariants_filter_proj _ (killV_id _ _ _ _) test w.variantId
        (fun v => (v.variantStatus, v.statusReason)), hforig]
      simp [hkv_pos hth]
  · intro hth
    refine ⟨?_, ?_, ?_⟩
    · rw [killStage_filter_proj now testId st test hget w.variantId
        (fun v => (v.variantStatus, v.statusReason)), hforig]
      simp [hkv_neg hth]
    · rw [hlogfin, if_neg (fun hq => hth hq.2), List.append_nil]
    · intro hbid
      rw [evaluate_eq_killStage_autoWin ops now testId st test hget hg]
      rw [autoWinPass_filter_proj ops testId now test.autoWinThreshold
        (controlOf (variantPerformanceOf st now testId test))
        (bestPerformerOf (activeOf (variantPerformanceOf st now testId test)))
        (killStageOf now testId st test) _ hgetks w.variantId hbid
        (fun v => v.variantStatus)]
      rw [mapVariants_filter_proj _ (killV_id _ _ _ _) test w.variantId
        (fun v => v.variantStatus), hforig]
      simp [hkv_neg hth, hvact]

/-! ### Further facts feeding the auto-win claims -/

theorem foldl_choice_mem {α : Type} (step : α → α → α)
    (hstep : ∀ a b, step a b = a ∨ step a b = b) (h : α) (t : List α) :
    t.foldl step h ∈ h :: t := by
  induction t generalizing h with
  | nil => exact List.mem_cons_self h []
  | cons c t ih =>
      rw [List.foldl_cons]
      have hmem := ih (step h c)
      rcases List.mem_cons.mp hmem with he | ht
      · rw [he]
        rcases hstep h c with hs | hs
        · rw [hs]; exact List.mem_cons_self h (c :: t)
        · rw [hs]; exact List.mem_cons_of_mem h (List.mem_cons_self c t)
      · exact List.mem_cons_of_mem h (List.mem_cons_of_mem c ht)

theorem bestPerformerOf_mem (A : List VariantPerformance) (hA : A ≠ []) :
    bestPerformerOf A ∈ A := by
  cases A with
  | nil => exact absurd rfl hA
  | cons h t =>
      unfold bestPerformerOf
      exact foldl_choice_mem _ (fun a b => by
        by_cases hc : a.conversionRate < b.conversionRate
        · right; simp [hc]
        · left; simp [hc]) h t

/-- The record produced by a kill-switch disablement of a row. -/
def disabledV (reason : String) (v : Variant) : Variant :=
  { v with variantStatus := "disabled", statusReason := some reason }

theorem killV_status_cases (threshold avg : ℚ) (cid : ℕ) (A : List VariantPerformance)
    (v : Variant) :
    killV threshold avg cid A v = v ∨
      ((killV threshold avg cid A v).variantStatus = "disabled" ∧
        ∃ u ∈ A, killQualifies threshold avg cid u ∧ u.variantId = v.id) := by
  induction A generalizing v with
  | nil => left; rfl
  | cons u A ih =>
      rw [killV_cons]
      by_cases hcid : u.variantId = cid
      · rw [if_pos hcid]
        rcases ih v with he | ⟨hs, u', hu', hq', hid'⟩
        · left; exact he
        · right; exact ⟨hs, u', List.mem_cons_of_mem u hu', hq', hid'⟩
      · rw [if_neg hcid]
        by_cases hth : threshold ≤ underperfOf avg u
        · rw [if_pos hth]
          by_cases hv : v.id = u.variantId
          · have hupd : updV u.variantId "disabled"
                (some (killReason (underperfOf avg u) threshold)) v =
                disabledV (killReason (underperfOf avg u) threshold) v := by
              unfold updV disabledV; rw [if_pos hv]
            rw [hupd]
            rcases ih (disabledV (killReason (underperfOf avg u) threshold) v) with
              he | ⟨hs, u', hu', hq', hid'⟩
            · right
              rw [he]
              exact ⟨rfl, u, List.mem_cons_self u A, ⟨hcid, hth⟩, hv.symm⟩
            · right
              refine ⟨hs, u', List.mem_cons_of_mem u hu', hq', ?_⟩
              rw [hid']
              rfl
          · rw [updV_of_ne _ _ _ _ hv]
            rcases ih v with he | ⟨hs, u', hu', hq', hid'⟩
            · left; exact he
            · right; exact ⟨hs, u', List.mem_cons_of_mem u hu', hq', hid'⟩
        · rw [if_neg hth]
          rcases ih v with he | ⟨hs, u', hu', hq', hid'⟩
          · left; exact he
          · right; exact ⟨hs, u', List.mem_cons_of_mem u hu', hq', hid'⟩

/-- The kill-switch transform never makes a `winner` and never disables a row that
was not `active`: the `winner`-flag of every row of the evaluated test is
preserved. -/
theorem killV_winner_flag (st : StorageState) (now : ℤ) (testId : ℕ) (test : Test)
    (threshold avg : ℚ) (cid : ℕ)
    (hN : (test.variants.map (fun v => v.id)).Nodup) (v : Variant)
    (hv : v ∈ test.variants) :
    decide ((killV threshold avg cid
        (activeOf (variantPerformanceOf st now testId test)) v).variantStatus =
      "winner") = decide (v.variantStatus = "winner") := by
  rcases killV_status_cases threshold avg cid
      (activeOf (variantPerformanceOf st now testId test)) v with he | ⟨hs, u, hu, _, hid⟩
  · rw [he]
  · rw [hs]
    obtain ⟨v', hv', hperf, hact⟩ := mem_activeOf st now testId test u hu
    have hid' : v'.id = v.id := by
      rw [← hid, hperf]; rfl
    have hveq : v' = v := List.inj_on_of_nodup_map hN hv' hv hid'
    rw [← hveq, hact]
    simp

theorem killEntries_filter_promoted (testId : ℕ) (now : ℤ) (threshold avg : ℚ)
    (cid : ℕ) (A : List VariantPerformance) :
    (killEntries testId now threshold avg cid A).filter
      (fun e => e.action = "promoted_winner") = [] := by
  apply List.filter_eq_nil_iff.mpr
  intro e he hk
  have := killEntries_action testId now threshold avg cid A e he
  rw [this] at hk
  simp at hk

/-! ### Claim C1: auto-win promotes exactly when both conditions hold -/

/-- C1: in an evaluation pass that passes all guards, when the best performer (first
maximum of the conversion rate over the variants active at entry) is not the control:

* if `uplift ≥ autoWinThreshold` and the significance estimator run on
  `(control.conversions, control.views, best.conversions, best.views)` returns
  `significant` (together: `autoWinFires`), the pass sets the best performer's row to
  `winner` with the promotion reason, sets the test's `winnerVariantId` to it and the
  test status to `winner_applied`, and appends exactly one `promoted_winner` entry —
  the `winnerEntry`, whose metadata is `{winnerConversionRate, controlConversionRate,
  uplift, confidence, threshold}`;
* if either condition fails, the test keeps its status and `winnerVariantId`, the
  `winner`-flags of all variant rows are unchanged, and no `promoted_winner` entry is
  appended (kill-switch disablements may still occur). -/
theorem autoWin_promotes_iff_conditions (ops : SigOps ℚ) (now : ℤ) (testId : ℕ)
    (st : StorageState) (test : Test)
    (hget : getTest st testId = some test)
    (hg : guardsPass now testId st test)
    (hN : (test.variants.map (fun v => v.id)).Nodup)
    (hne : (controlOf (variantPerformanceOf st now testId test)).variantId ≠
      (bestPerformerOf (activeOf (variantPerformanceOf st now testId test))).variantId) :
    (autoWinFires ops test.autoWinThreshold
        (controlOf (variantPerformanceOf st now testId test))
        (bestPerformerOf (activeOf (variantPerformanceOf st now testId test))) →
      (getTest (evaluateTestPerformance ops now testId st) testId).map
          (fun t => (t.status, t.winnerVariantId)) =
        some ("winner_applied", some (bestPerformerOf (activeOf
          (variantPerformanceOf st now testId test))).variantId) ∧
      (getTest (evaluateTestPerformance ops now testId st) testId).map (fun t =>
          (t.variants.filter (fun v => v.id = (bestPerformerOf (activeOf
            (variantPerformanceOf st now testId test))).variantId)).map
            (fun v => (v.variantStatus, v.statusReason))) =
        some [("winner", some (winnerReason
          (upliftOf (controlOf (variantPerformanceOf st now testId test))
            (bestPerformerOf (activeOf (variantPerformanceOf st now testId test))))
          (autoWinSignificance ops
            (controlOf (variantPerformanceOf st now testId test))
            (bestPerformerOf (activeOf
              (variantPerformanceOf st now testId test)))).confidence))] ∧
      (evaluateTestPerformance ops now testId st).log.filter
          (fun e => e.action = "promoted_winner") =
        st.log.filter (fun e => e.action = "promoted_winner") ++
          [winnerEntry testId now test.autoWinThreshold
            (controlOf (variantPerformanceOf st now testId test))
            (bestPerformerOf (activeOf (variantPerformanceOf st now testId test)))
            (autoWinSignificance ops
              (controlOf (variantPerformanceOf st now testId test))
              (bestPerformerOf (activeOf
                (variantPerformanceOf st now testId test)))).confidence]) ∧
    (¬ autoWinFires ops test.autoWinThreshold
        (controlOf (variantPerformanceOf st now testId test))
        (bestPerformerOf (activeOf (variantPerformanceOf st now testId test))) →
      (getTest (evaluateTestPerformance ops now testId st) testId).map
          (fun t => (t.status, t.winnerVariantId)) =
        some (test.status, test.winnerVariantId) ∧
      (getTest (evaluateTestPerformance ops now testId st) testId).map (fun t =>
          t.variants.map (fun v => (v.id, decide (v.variantStatus = "winner")))) =
        some (test.variants.map
          (fun v => (v.id, decide (v.variantStatus = "winner")))) ∧
      (evaluateTestPerformance ops now testId st).log.filter
          (fun e => e.action = "promoted_winner") =
        st.log.filter (fun e => e.action = "promoted_winner")) := by
  have hgetks : getTest (killStageOf now testId st test) testId =
      some (mapVariants (killV test.killSwitchThreshold
        (avgConversionRateOf (activeOf (variantPerformanceOf st now testId test)))
        (controlOf (variantPerformanceOf st now testId test)).variantId
        (activeOf (variantPerformanceOf st now testId test))) test) := by
    unfold killStageOf
    rw [getTest_killSwitchPass, hget]
    rfl
  have hAne : activeOf (variantPerformanceOf st now testId test) ≠ [] := by
    intro h0
    have g3 := hg.2.2.1
    rw [h0] at g3
    simp at g3
  obtain ⟨vb, hvb, hbperf, hbact⟩ :=
    mem_activeOf st now testId test _
      (bestPerformerOf_mem (activeOf (variantPerformanceOf st now testId test)) hAne)
  have hbid : (bestPerformerOf (activeOf
      (variantPerformanceOf st now testId test))).variantId = vb.id := by
    rw [hbperf]; rfl
  have hforig : test.variants.filter (fun v => v.id = (bestPerformerOf (activeOf
      (variantPerformanceOf st now testId test))).variantId) = [vb] := by
    rw [hbid]
    exact filter_key_singleton (fun v : Variant => v.id) test.variants hN vb hvb
  constructor
  · intro hfires
    rw [evaluate_eq_killStage_autoWin ops now testId st test hget hg,
      autoWinPass_eq_promote _ _ _ _ _ _ _ hne hfires]
    have hget2 : getTest (updateVariantStatus (killStageOf now testId st test)
        (bestPerformerOf (activeOf
          (variantPerformanceOf st now testId test))).variantId "winner"
        (some (winnerReason
          (upliftOf (controlOf (variantPerformanceOf st now testId test))
            (bestPerformerOf (activeOf (variantPerformanceOf st now testId test))))
          (autoWinSignificance ops
            (controlOf (variantPerformanceOf st now testId test))
            (bestPerformerOf (activeOf
              (variantPerformanceOf st now testId test)))).confidence))) testId =
        some (mapVariants (updV (bestPerformerOf (activeOf
            (variantPerformanceOf st now testId test))).variantId "winner"
          (some (winnerReason
            (upliftOf (controlOf (variantPerformanceOf st now testId test))
              (bestPerformerOf (activeOf (variantPerformanceOf st now testId test))))
            (autoWinSignificance ops
              (controlOf (variantPerformanceOf st now testId test))
              (bestPerformerOf (activeOf
                (variantPerformanceOf st now testId test)))).confidence)))
          (mapVariants (killV test.killSwitchThreshold
            (avgConversionRateOf (activeOf
              (variantPerformanceOf st now testId test)))
            (controlOf (variantPerformanceOf st now testId test)).variantId
            (activeOf (variantPerformanceOf st now testId test))) test)) := by
      rw [getTest_updateVariantStatus, hgetks]
      rfl
    refine ⟨?_, ?_, ?_⟩
    · rw [getTest_createActivityLogEntry,
        getTest_updateTestWinner_self _ _ _ _ hget2]
      rfl
    · rw [getTest_createActivityLogEntry,
        getTest_updateTestWinner_self _ _ _ _ hget2]
      show some _ = some _
      congr 1
      show ((mapVariants _ (mapVariants _ test)).variants.filter _).map _ = _
      rw [mapVariants_filter_proj _ (updV_id _ _ _) _ _ _]
      rw [mapVariants_filter_proj _ (killV_id _ _ _ _) _ _ _]
      rw [hforig]
      have hup : updV (bestPerformerOf (activeOf
          (variantPerformanceOf st now testId test))).variantId "winner"
          (some (winnerReason
            (upliftOf (controlOf (variantPerformanceOf st now testId test))
              (bestPerformerOf (activeOf (variantPerformanceOf st now testId test))))
            (autoWinSignificance ops
              (controlOf (variantPerformanceOf st now testId test))
              (bestPerformerOf (activeOf
                (variantPerformanceOf st now testId test)))).confidence))
          (killV test.killSwitchThreshold
            (avgConversionRateOf (activeOf
              (variantPerformanceOf st now testId test)))
            (controlOf (variantPerformanceOf st now testId test)).variantId
            (activeOf (variantPerformanceOf st now testId test)) vb) =
          { killV test.killSwitchThreshold
              (avgConversionRateOf (activeOf
                (variantPerformanceOf st now testId test)))
              (controlOf (variantPerformanceOf st now testId test)).variantId
              (activeOf (variantPerformanceOf st now testId test)) vb with
            variantStatus := "winner",
            statusReason := some (winnerReason
              (upliftOf (controlOf (variantPerformanceOf st now testId test))
                (bestPerformerOf (activeOf
                  (variantPerformanceOf st now testId test))))
              (autoWinSignificance ops
                (controlOf (variantPerformanceOf st now testId test))
                (bestPerformerOf (activeOf
                  (variantPerformanceOf st now testId test)))).confidence) } := by
        unfold updV
        rw [if_pos (by rw [killV_id, hbid])]
      simp [hup]
    · show ((killStageOf now testId st test).log ++ _).filter _ = _
      rw [List.filter_append]
      have hks : (killStageOf now testId st test).log.filter
          (fun e => e.action = "promoted_winner") =
          st.log.filter (fun e => e.action = "promoted_winner") := by
        unfold killStageOf
        rw [log_killSwitchPass, List.filter_append, killEntries_filter_promoted,
          List.append_nil]
      rw [hks]
      congr 1
  · intro hnf
    rw [evaluate_eq_killStage_autoWin ops now testId st test hget hg,
      autoWinPass_eq_self _ _ _ _ _ _ _ (Or.inr hnf)]
    refine ⟨?_, ?_, ?_⟩
    · rw [hgetks]; rfl
    · rw [hgetks]
      show some _ = some _
      congr 1
      show (test.variants.map _).map _ = _
      rw [List.map_map]
      apply List.map_congr_left
      intro v hv
      show (_, _) = (_, _)
      rw [killV_id, killV_winner_flag st now testId test _ _ _ hN v hv]
    · unfold killStageOf
      rw [log_killSwitchPass, List.filter_append, killEntries_filter_promoted,
        List.append_nil]

/-! ### Claim C8: both actions can fire in one pass, on the entry-time pool -/

/-- C8: the auto-win check consumes `controlOf`/`bestPerformerOf` computed from the
variants active at entry (`activeOf (variantPerformanceOf st …)` of the *initial*
state), before any kill-switch disablement of the same call; its hypotheses
(`autoWinFires` on the entry records) are therefore untouched by the kill-switch
stage, and a disablement and a winner promotion can happen in the same call: under
the kill condition for `w` and the promotion conditions for the entry-time best
performer, the final log contains `w`'s `disabled_variant` entry, the test is
`winner_applied` with the best performer as winner, and the last log entry is the
`promoted_winner` entry. -/
theorem killSwitch_and_autoWin_same_pass (ops : SigOps ℚ) (now : ℤ) (testId : ℕ)
    (st : StorageState) (test : Test) (w : VariantPerformance)
    (hget : getTest st testId = some test)
    (hg : guardsPass now testId st test)
    (hw : w ∈ activeOf (variantPerformanceOf st now testId test))
    (hnc : w.variantId ≠
      (controlOf (variantPerformanceOf st now testId test)).variantId)
    (hth : test.killSwitchThreshold ≤ underperfOf (avgConversionRateOf (activeOf
      (variantPerformanceOf st now testId test))) w)
    (hne : (controlOf (variantPerformanceOf st now testId test)).variantId ≠
      (bestPerformerOf (activeOf (variantPerformanceOf st now testId test))).variantId)
    (hfires : autoWinFires ops test.autoWinThreshold
      (controlOf (variantPerformanceOf st now testId test))
      (bestPerformerOf (activeOf (variantPerformanceOf st now testId test)))) :
    killSwitchEntry testId now test.killSwitchThreshold
        (avgConversionRateOf (activeOf (variantPerformanceOf st now testId test))) w ∈
      (evaluateTestPerformance ops now testId st).log ∧
    (getTest (evaluateTestPerformance ops now testId st) testId).map
        (fun t => (t.status, t.winnerVariantId)) =
      some ("winner_applied", some (bestPerformerOf (activeOf
        (variantPerformanceOf st now testId test))).variantId) ∧
    (evaluateTestPerformance ops now testId st).log.getLast? =
      some (winnerEntry testId now test.autoWinThreshold
        (controlOf (variantPerformanceOf st now testId test))
        (bestPerformerOf (activeOf (variantPerformanceOf st now testId test)))
        (autoWinSignificance ops
          (controlOf (variantPerformanceOf st now testId test))
          (bestPerformerOf (activeOf
            (variantPerformanceOf st now testId test)))).confidence) := by
  have hgetks : getTest (killStageOf now testId st test) testId =
      some (mapVariants (killV test.killSwitchThreshold
        (avgConversionRateOf (activeOf (variantPerformanceOf st now testId test)))
        (controlOf (variantPerformanceOf st now testId test)).variantId
        (activeOf (variantPerformanceOf st now testId test))) test) := by
    unfold killStageOf
    rw [getTest_killSwitchPass, hget]
    rfl
  rw [evaluate_eq_killStage_autoWin ops now testId st test hget hg,
    autoWinPass_eq_promote _ _ _ _ _ _ _ hne hfires]
  have hget2 : getTest (updateVariantStatus (killStageOf now testId st test)
      (bestPerformerOf (activeOf
        (variantPerformanceOf st now testId test))).variantId "winner"
      (some (winnerReason
        (upliftOf (controlOf (variantPerformanceOf st now testId test))
          (bestPerformerOf (activeOf (variantPerformanceOf st now testId test))))
        (autoWinSignificance ops
          (controlOf (variantPerformanceOf st now testId test))
          (bestPerformerOf (activeOf
            (variantPerformanceOf st now testId test)))).confidence))) testId =
      some (mapVariants (updV (bestPerformerOf (activeOf
          (variantPerformanceOf st now testId test))).variantId "winner"
        (some (winnerReason
          (upliftOf (controlOf (variantPerformanceOf st now testId test))
            (bestPerformerOf (activeOf (variantPerformanceOf st now testId test))))
          (autoWinSignificance ops
            (controlOf (variantPerformanceOf st now testId test))
            (bestPerformerOf (activeOf
              (variantPerformanceOf st now testId test)))).confidence)))
        (mapVariants (killV test.killSwitchThreshold
          (avgConversionRateOf (activeOf
            (variantPerformanceOf st now testId test)))
          (controlOf (variantPerformanceOf st now testId test)).variantId
          (activeOf (variantPerformanceOf st now testId test))) test)) := by
    rw [getTest_updateVariantStatus, hgetks]
    rfl
  refine ⟨?_, ?_, ?_⟩
  · show _ ∈ (killStageOf now testId st test).log ++ _
    apply List.mem_append.mpr
    left
    unfold killStageOf
    rw [log_killSwitchPass]
    apply List.mem_append.mpr
    right
    unfold killEntries
    apply List.mem_map_of_mem
    exact List.mem_filter.mpr ⟨hw, decide_eq_true ⟨hnc, hth⟩⟩
  · rw [getTest_createActivityLogEntry,
      getTest_updateTestWinner_self _ _ _ _ hget2]
    rfl
  · show ((killStageOf now testId st test).log ++ _).getLast? = _
    simp [List.getLast?_append]

/-! ### Concrete end-to-end scenarios used as witnesses -/

/-- Control variant of the end-to-end promotion scenario. -/
def endVariantA : Variant := { id := 1, name := "Variant A", variantStatus := "active", statusReason := none }

/-- Challenger variant of the end-to-end promotion scenario. -/
def endVariantB : Variant := { id := 2, name := "Variant B", variantStatus := "active", statusReason := none }

/-- The running test of the end-to-end promotion scenario
(`minSampleSize = 100`, `killSwitchThreshold = 30`, `autoWinThreshold = 50`). -/
def endTest : Test where
  id := 1
  status := "running"
  autonomousOptimization := true
  minSampleSize := 100
  killSwitchThreshold := 30
  autoWinThreshold := 50
  winnerVariantId := none
  variants := [endVariantA, endVariantB]

/-- The end-to-end promotion state: control 30/1000 (3%), challenger 48/1000
(4.8%), uplift 60% ≥ 50%. -/
def endState : StorageState where
  tests := [endTest]
  analytics := [{ testId := 1, variantId := 1, timestamp := 500, views := 1000, conversions := 30 },
                { testId := 1, variantId := 2, timestamp := 500, views := 1000, conversions := 48 }]
  log := []

theorem autoWin_promotes_iff_conditions_witness :
    (getTest (evaluateTestPerformance opsSig 1000 1 endState) 1).map
        (fun t => (t.status, t.winnerVariantId)) =
      some ("winner_applied", some (bestPerformerOf (activeOf
        (variantPerformanceOf endState 1000 1 endTest))).variantId) :=
  ((autoWin_promotes_iff_conditions opsSig 1000 1 endState endTest rfl
      (by with_unfolding_all decide) (by with_unfolding_all decide)
      (by with_unfolding_all decide)).1 (by with_unfolding_all decide)).1

theorem killSwitch_fires_iff_threshold_witness :
    (getTest (killStageOf 1000 1 reState0 reTest) 1).map (fun t =>
        (t.variants.filter (fun v =>
          v.id = (perfOf reState0 1000 1 reVariantB).variantId)).map
          (fun v => (v.variantStatus, v.statusReason))) =
      some [("disabled",
        some (killReason (underperfOf (avgConversionRateOf (activeOf
          (variantPerformanceOf reState0 1000 1 reTest)))
          (perfOf reState0 1000 1 reVariantB)) reTest.killSwitchThreshold))] :=
  ((killSwitch_fires_iff_threshold opsSig 1000 1 reState0 reTest
      (perfOf reState0 1000 1 reVariantB) rfl (by with_unfolding_all decide)
      (by with_unfolding_all decide) (by with_unfolding_all decide)
      (by with_unfolding_all decide)).1 (by with_unfolding_all decide)).1

/-- Variants of the simultaneous kill-and-promote scenario. -/
def bothVariantA : Variant := { id := 1, name := "Variant A", variantStatus := "active", statusReason := none }

/-- Second variant (to be disabled) of the simultaneous scenario. -/
def bothVariantB : Variant := { id := 2, name := "Variant B", variantStatus := "active", statusReason := none }

/-- Third variant (to be promoted) of the simultaneous scenario. -/
def bothVariantC : Variant := { id := 3, name := "Variant C", variantStatus := "active", statusReason := none }

/-- The running test of the simultaneous scenario. -/
def bothTest : Test where
  id := 1
  status := "running"
  autonomousOptimization := true
  minSampleSize := 100
  killSwitchThreshold := 30
  autoWinThreshold := 50
  winnerVariantId := none
  variants := [bothVariantA, bothVariantB, bothVariantC]

/-- The simultaneous scenario state: rates 3%, 0.1%, 6% — variant 2 qualifies for the
kill switch and variant 3 for the promotion in the same pass. -/
def bothState : StorageState where
  tests := [bothTest]
  analytics := [{ testId := 1, variantId := 1, timestamp := 500, views := 1000, conversions := 30 },
                { testId := 1, variantId := 2, timestamp := 500, views := 1000, conversions := 1 },
                { testId := 1, variantId := 3, timestamp := 500, views := 1000, conversions := 60 }]
  log := []

set_option maxRecDepth 4000 in
theorem killSwitch_and_autoWin_same_pass_witness :
    killSwitchEntry 1 1000 bothTest.killSwitchThreshold
        (avgConversionRateOf (activeOf (variantPerformanceOf bothState 1000 1 bothTest)))
        (perfOf bothState 1000 1 bothVariantB) ∈
      (evaluateTestPerformance opsSig 1000 1 bothState).log ∧
    (getTest (evaluateTestPerformance opsSig 1000 1 bothState) 1).map
        (fun t => (t.status, t.winnerVariantId)) =
      some ("winner_applied", some (bestPerformerOf (activeOf
        (variantPerformanceOf bothState 1000 1 bothTest))).variantId) :=
  ⟨(killSwitch_and_autoWin_same_pass opsSig 1000 1 bothState bothTest
      (perfOf bothState 1000 1 bothVariantB) rfl (by with_unfolding_all decide)
      (by with_unfolding_all decide) (by with_unfolding_all decide)
      (by with_unfolding_all decide) (by with_unfolding_all decide)
      (by with_unfolding_all decide)).1,
    (killSwitch_and_autoWin_same_pass opsSig 1000 1 bothState bothTest
      (perfOf bothState 1000 1 bothVariantB) rfl (by with_unfolding_all decide)
      (by with_unfolding_all decide) (by with_unfolding_all decide)
      (by with_unfolding_all decide) (by with_unfolding_all decide)
      (by with_unfolding_all decide)).2.1⟩

/-! ### Claim C6: the returned triple after decimal rounding

The instantiation at `ℝ` with the genuine `Real.sqrt`/`Real.exp` primitives.  The
source computes `significant` and `confidence` from the p-value *before* it is
rounded (`parseFloat(pValue.toFixed(4))` is only applied to the returned field), so
the claimed relations, which are phrased in terms of the *returned* p-value, fail:
at `(38, 1000, 46, 1000)` the p-value is `0.3724999…`, the returned p-value rounds to
`0.3725`, and the claimed confidence `clamp((1 - 0.3725)·100, 0, 99.9) = 62.75` is
not a multiple of `0.1`, while the returned confidence (a 1-decimal rounding) always
is. -/

/-- The `Math` primitives of the JavaScript runtime, at `ℝ`. -/
noncomputable def realOps : SigOps ℝ := ⟨Real.sqrt, Real.exp⟩

/-- The p-value of the z-test before the final `toFixed(4)` rounding
(`src/server/routes.ts` line 60). -/
def rawPValue {α : Type} [LinearOrderedField α] [FloorRing α] (ops : SigOps α)
    (conversions1 views1 conversions2 views2 : ℕ) : α :=
  2 * (1 - normalCDF ops
    (|(conversions1 : α) / (views1 : α) - (conversions2 : α) / (views2 : α)| /
      ops.sqrt (seRadicand conversions1 views1 conversions2 views2)))

theorem calcSig_main_branch {α : Type} [LinearOrderedField α] [FloorRing α]
    (ops : SigOps α) (conversions1 views1 conversions2 views2 : ℕ)
    (h1 : views1 ≠ 0) (h2 : views2 ≠ 0)
    (hse : ops.sqrt (seRadicand (α := α) conversions1 views1 conversions2 views2) ≠ 0) :
    calculateStatisticalSignificance ops conversions1 views1 conversions2 views2 =
      ⟨decide (rawPValue ops conversions1 views1 conversions2 views2 < 1 / 20),
       jsRound 10 (min (999 / 10) (max 0
         ((1 - rawPValue ops conversions1 views1 conversions2 views2) * 100))),
       jsRound 10000 (rawPValue ops conversions1 views1 conversions2 views2)⟩ := by
  simp only [calculateStatisticalSignificance, rawPValue]
  rw [if_neg (by tauto), if_neg hse]

/-- C6 amended: for inputs with nonzero views and nonzero pooled standard error, the
returned triple satisfies: `significant` is true exactly when the *pre-rounding*
p-value is below `0.05`; the returned `confidence` is `clamp((1 - p)·100, 0, 99.9)`
of the *pre-rounding* p-value `p`, rounded to one decimal; and the returned `pValue`
is `p` rounded to four decimals.  (The original claim related the returned fields to
the returned, 4-decimal-rounded p-value; the counterexample shows that fails.) -/
theorem significance_prerounding_amended {α : Type} [LinearOrderedField α]
    [FloorRing α] (ops : SigOps α)
    (conversions1 views1 conversions2 views2 : ℕ)
    (h1 : views1 ≠ 0) (h2 : views2 ≠ 0)
    (hse : ops.sqrt (seRadicand (α := α) conversions1 views1 conversions2 views2) ≠ 0) :
    (calculateStatisticalSignificance ops conversions1 views1 conversions2
        views2).significant =
      decide (rawPValue ops conversions1 views1 conversions2 views2 < 1 / 20) ∧
    (calculateStatisticalSignificance ops conversions1 views1 conversions2
        views2).confidence =
      jsRound 10 (min (999 / 10) (max 0
        ((1 - rawPValue ops conversions1 views1 conversions2 views2) * 100))) ∧
    (calculateStatisticalSignificance ops conversions1 views1 conversions2
        views2).pValue =
      jsRound 10000 (rawPValue ops conversions1 views1 conversions2 views2) := by
  rw [calcSig_main_branch ops conversions1 views1 conversions2 views2 h1 h2 hse]
  exact ⟨rfl, rfl, rfl⟩

theorem significance_prerounding_amended_witness :
    (calculateStatisticalSignificance opsSig 30 1000 48 1000).significant =
      decide (rawPValue opsSig 30 1000 48 1000 < 1 / 20) ∧
    (calculateStatisticalSignificance opsSig 30 1000 48 1000).confidence =
      jsRound 10 (min (999 / 10) (max 0
        ((1 - rawPValue opsSig 30 1000 48 1000) * 100))) ∧
    (calculateStatisticalSignificance opsSig 30 1000 48 1000).pValue =
      jsRound 10000 (rawPValue opsSig 30 1000 48 1000) :=
  significance_prerounding_amended opsSig 30 1000 48 1000 (by norm_num) (by norm_num)
    (by with_unfolding_all decide)

/-! #### Certified evaluation of the p-value at the counterexample input

At `(conversions1, views1, conversions2, views2) = (38, 1000, 46, 1000)`:
`p1 - p2 = -1/125`, the pooled radicand is `10059/125000000`, and the z-score `z`
satisfies `z²/2 = 4000/10059`, so the polynomial argument is `√(4000/10059)` and the
exponential factor is `exp(-(4000/10059))`.  Interval bounds certified below place
the p-value in `(0.37245, 0.37255)`, so `toFixed(4)` returns exactly `0.3725`. -/

/-- The quintic factor `(((((a5·t + a4)·t) + a3)·t + a2)·t + a1)·t` of the
Abramowitz–Stegun approximation, as a standalone polynomial. -/
def asPoly {α : Type} [LinearOrderedField α] (t : α) : α :=
  ((((1061405429 / 10 ^ 9 * t + -1453152027 / 10 ^ 9) * t + 1421413741 / 10 ^ 9) * t +
    -284496736 / 10 ^ 9) * t + 254829592 / 10 ^ 9) * t

/-- The polynomial argument `t = 1/(1 + p·x)` at the counterexample input. -/
noncomputable def cexT : ℝ :=
  1 / (1 + 3275911 / 10 ^ 7 * Real.sqrt (4000 / 10059))

theorem cex_rad_eq : seRadicand (α := ℝ) 38 1000 46 1000 = 10059 / 125000000 := by
  unfold seRadicand
  norm_num

theorem cex_sqrt_rad_ne :
    Real.sqrt (seRadicand (α := ℝ) 38 1000 46 1000) ≠ 0 := by
  rw [cex_rad_eq]
  exact (Real.sqrt_pos.mpr (by norm_num)).ne'

theorem div_sqrt_div_sqrt_two (a r : ℝ) (ha : 0 ≤ a) (hr : 0 < r) :
    a / Real.sqrt r / Real.sqrt 2 = Real.sqrt (a ^ 2 / (2 * r)) := by
  rw [← Real.sqrt_sq (show (0:ℝ) ≤ a / Real.sqrt r / Real.sqrt 2 by positivity)]
  congr 1
  rw [div_pow, div_pow, Real.sq_sqrt hr.le, Real.sq_sqrt (by norm_num : (0:ℝ) ≤ 2)]
  ring

theorem cex_pvalue_eq :
    rawPValue realOps 38 1000 46 1000 = asPoly cexT * Real.exp (-(4000 / 10059)) := by
  have hz0 : (0:ℝ) ≤ 1 / 125 / Real.sqrt (10059 / 125000000) := by positivity
  have hx1 : (1 / 125 : ℝ) / Real.sqrt (10059 / 125000000) / Real.sqrt 2 =
      Real.sqrt (4000 / 10059) := by
    rw [div_sqrt_div_sqrt_two (1 / 125) (10059 / 125000000) (by norm_num)
      (by norm_num)]
    norm_num
  have habs : |(38:ℝ) / 1000 - (46:ℝ) / 1000| = 1 / 125 := by
    rw [show (38:ℝ) / 1000 - 46 / 1000 = -(1 / 125) by norm_num, abs_neg,
      abs_of_nonneg (by norm_num : (0:ℝ) ≤ 1 / 125)]
  simp only [rawPValue, normalCDF, realOps]
  push_cast
  rw [cex_rad_eq]
  simp only [habs]
  rw [if_neg (not_lt.mpr hz0)]
  rw [abs_of_nonneg hz0, hx1]
  rw [Real.mul_self_sqrt (by norm_num : (0:ℝ) ≤ 4000 / 10059)]
  simp only [cexT, asPoly]
  ring

theorem cex_sqrt_bounds :
    6305980037473 / 10 ^ 13 ≤ Real.sqrt (4000 / 10059) ∧
      Real.sqrt (4000 / 10059) ≤ 6305980037476 / 10 ^ 13 := by
  constructor
  · exact (Real.le_sqrt (by norm_num) (by norm_num)).mpr (by norm_num)
  · exact Real.sqrt_le_iff.mpr ⟨by norm_num, by norm_num⟩

theorem cex_t_bounds :
    2071974950189 / 2500000000000 ≤ cexT ∧ cexT ≤ 207197495019 / 250000000000 := by
  have hs := cex_sqrt_bounds
  have hsn : (0:ℝ) ≤ Real.sqrt (4000 / 10059) := Real.sqrt_nonneg _
  have hden_pos : (0:ℝ) < 1 + 3275911 / 10 ^ 7 * Real.sqrt (4000 / 10059) := by
    positivity
  constructor
  · have h1 : 1 + (3275911:ℝ) / 10 ^ 7 * Real.sqrt (4000 / 10059) ≤
        1 + 3275911 / 10 ^ 7 * (6305980037476 / 10 ^ 13) := by nlinarith [hs.2]
    have h2 : 1 / (1 + (3275911:ℝ) / 10 ^ 7 * (6305980037476 / 10 ^ 13)) ≤ cexT :=
      one_div_le_one_div_of_le hden_pos h1
    refine le_trans (by norm_num) h2
  · have h1 : 1 + (3275911:ℝ) / 10 ^ 7 * (6305980037473 / 10 ^ 13) ≤
        1 + 3275911 / 10 ^ 7 * Real.sqrt (4000 / 10059) := by nlinarith [hs.1]
    have h2 : cexT ≤ 1 / (1 + (3275911:ℝ) / 10 ^ 7 * (6305980037473 / 10 ^ 13)) :=
      one_div_le_one_div_of_le (by norm_num) h1
    refine le_trans h2 (by norm_num)

theorem asPoly_diff_bound (s u : ℝ) (hs0 : 0 ≤ s) (hs1 : s ≤ 1) (hu0 : 0 ≤ u)
    (hu1 : u ≤ 1) : |asPoly s - asPoly u| ≤ 20 * |s - u| := by
  have hfact : asPoly s - asPoly u = (s - u) *
      (254829592 / 10 ^ 9 + -284496736 / 10 ^ 9 * (s + u) +
        1421413741 / 10 ^ 9 * (s ^ 2 + s * u + u ^ 2) +
        -1453152027 / 10 ^ 9 * (s ^ 3 + s ^ 2 * u + s * u ^ 2 + u ^ 3) +
        1061405429 / 10 ^ 9 * (s ^ 4 + s ^ 3 * u + s ^ 2 * u ^ 2 + s * u ^ 3 +
          u ^ 4)) := by
    unfold asPoly; ring
  rw [hfact, abs_mul, mul_comm]
  apply mul_le_mul_of_nonneg_right _ (abs_nonneg _)
  have hs2 : s ^ 2 ≤ 1 := pow_le_one₀ hs0 hs1
  have hs3 : s ^ 3 ≤ 1 := pow_le_one₀ hs0 hs1
  have hs4 : s ^ 4 ≤ 1 := pow_le_one₀ hs0 hs1
  have hu2 : u ^ 2 ≤ 1 := pow_le_one₀ hu0 hu1
  have hu3 : u ^ 3 ≤ 1 := pow_le_one₀ hu0 hu1
  have hu4 : u ^ 4 ≤ 1 := pow_le_one₀ hu0 hu1
  have hsu : s * u ≤ 1 := mul_le_one₀ hs1 hu0 hu1
  have hs2u : s ^ 2 * u ≤ 1 := mul_le_one₀ hs2 hu0 hu1
  have hsu2 : s * u ^ 2 ≤ 1 := mul_le_one₀ hs1 (by positivity) hu2
  have hs3u : s ^ 3 * u ≤ 1 := mul_le_one₀ hs3 hu0 hu1
  have hs2u2 : s ^ 2 * u ^ 2 ≤ 1 := mul_le_one₀ hs2 (by positivity) hu2
  have hsu3 : s * u ^ 3 ≤ 1 := mul_le_one₀ hs1 (by positivity) hu3
  have hsu0 : 0 ≤ s * u := by positivity
  have hs2u0 : 0 ≤ s ^ 2 * u := by positivity
  have hsu20 : 0 ≤ s * u ^ 2 := by positivity
  have hs3u0 : 0 ≤ s ^ 3 * u := by positivity
  have hs2u20 : 0 ≤ s ^ 2 * u ^ 2 := by positivity
  have hsu30 : 0 ≤ s * u ^ 3 := by positivity
  have hs20 : 0 ≤ s ^ 2 := by positivity
  have hs30 : 0 ≤ s ^ 3 := by positivity
  have hs40 : 0 ≤ s ^ 4 := by positivity
  have hu20 : 0 ≤ u ^ 2 := by positivity
  have hu30 : 0 ≤ u ^ 3 := by positivity
  have hu40 : 0 ≤ u ^ 4 := by positivity
  apply abs_le.mpr
  constructor
  · nlinarith [hs2, hs3, hs4, hu2, hu3, hu4, hsu, hs2u, hsu2, hs3u, hs2u2, hsu3]
  · nlinarith [hs2, hs3, hs4, hu2, hu3, hu4, hsu, hs2u, hsu2, hs3u, hs2u2, hsu3]

/-- The degree-12 Taylor sum of `exp` at `-(2000/10059)`, as an exact rational. -/
theorem cex_taylor_sum :
    ∑ m ∈ Finset.range 13, (-(2000 / 10059 : ℝ)) ^ m / (m.factorial : ℝ) =
      16459068846213712324654266843103016907879592188342391 /
        20079583329994684621731258129107667868109908371440391 := by
  simp [Finset.sum_range_succ]
  norm_num [Nat.factorial]

theorem cex_exp_half_bounds :
    |Real.exp (-(2000 / 10059)) -
        16459068846213712324654266843103016907879592188342391 /
          20079583329994684621731258129107667868109908371440391| ≤
      1 / 10 ^ 10 := by
  have hb := Real.exp_bound (x := -(2000 / 10059 : ℝ))
    (by rw [abs_of_nonpos (by norm_num)]; norm_num) (n := 13) (by norm_num)
  rw [cex_taylor_sum] at hb
  refine le_trans hb ?_
  rw [abs_of_nonpos (by norm_num : (-(2000 / 10059 : ℝ)) ≤ 0)]
  norm_num [Nat.factorial]

theorem cex_E_bounds :
    134378913741 / 200000000000 ≤ Real.exp (-(4000 / 10059)) ∧
      Real.exp (-(4000 / 10059)) ≤ 134378913807 / 200000000000 := by
  have hsplit : Real.exp (-(4000 / 10059 : ℝ)) =
      Real.exp (-(2000 / 10059)) * Real.exp (-(2000 / 10059)) := by
    rw [← Real.exp_add]
    norm_num
  have hb := abs_le.mp cex_exp_half_bounds
  have hlo : (16459068846213712324654266843103016907879592188342391 /
        20079583329994684621731258129107667868109908371440391 - 1 / 10 ^ 10 : ℝ) ≤
      Real.exp (-(2000 / 10059)) := by linarith [hb.1]
  have hhi : Real.exp (-(2000 / 10059)) ≤
      (16459068846213712324654266843103016907879592188342391 /
        20079583329994684621731258129107667868109908371440391 + 1 / 10 ^ 10 : ℝ) := by
    linarith [hb.2]
  have hpos : (0:ℝ) < 16459068846213712324654266843103016907879592188342391 /
      20079583329994684621731258129107667868109908371440391 - 1 / 10 ^ 10 := by
    norm_num
  constructor
  · rw [hsplit]
    calc (134378913741 / 200000000000 : ℝ) ≤
        (16459068846213712324654266843103016907879592188342391 /
          20079583329994684621731258129107667868109908371440391 - 1 / 10 ^ 10) *
        (16459068846213712324654266843103016907879592188342391 /
          20079583329994684621731258129107667868109908371440391 - 1 / 10 ^ 10) := by
          norm_num
      _ ≤ Real.exp (-(2000 / 10059)) * Real.exp (-(2000 / 10059)) :=
          mul_le_mul hlo hlo hpos.le (Real.exp_pos _).le
  · rw [hsplit]
    calc Real.exp (-(2000 / 10059)) * Real.exp (-(2000 / 10059)) ≤
        (16459068846213712324654266843103016907879592188342391 /
          20079583329994684621731258129107667868109908371440391 + 1 / 10 ^ 10) *
        (16459068846213712324654266843103016907879592188342391 /
          20079583329994684621731258129107667868109908371440391 + 1 / 10 ^ 10) :=
          mul_le_mul hhi hhi (Real.exp_pos _).le (by norm_num)
      _ ≤ (134378913807 / 200000000000 : ℝ) := by norm_num

theorem cex_p_bounds :
    37245 / 100000 ≤ rawPValue realOps 38 1000 46 1000 ∧
      rawPValue realOps 38 1000 46 1000 < 37255 / 100000 := by
  rw [cex_pvalue_eq]
  have ht := cex_t_bounds
  have hE := cex_E_bounds
  have ht0 : (0:ℝ) ≤ cexT := le_trans (by norm_num) ht.1
  have ht1 : cexT ≤ 1 := le_trans ht.2 (by norm_num)
  have hAd := asPoly_diff_bound cexT (2071974950189 / 2500000000000) ht0 ht1
    (by norm_num) (by norm_num)
  have hdt : |cexT - 2071974950189 / 2500000000000| ≤ 4 / 10 ^ 13 := by
    apply abs_le.mpr
    constructor
    · linarith [ht.1]
    · have hhi : (207197495019 / 250000000000 : ℝ) =
          2071974950189 / 2500000000000 + 4 / 10 ^ 13 := by norm_num
      linarith [ht.2, hhi]
  have hA : |asPoly cexT - asPoly (2071974950189 / 2500000000000 : ℝ)| ≤
      8 / 10 ^ 12 := by
    refine le_trans hAd ?_
    calc (20:ℝ) * |cexT - 2071974950189 / 2500000000000| ≤ 20 * (4 / 10 ^ 13) := by
          exact mul_le_mul_of_nonneg_left hdt (by norm_num)
      _ = 8 / 10 ^ 12 := by norm_num
  have hAb := abs_le.mp hA
  have hA_lo : asPoly (2071974950189 / 2500000000000 : ℝ) - 8 / 10 ^ 12 ≤
      asPoly cexT := by linarith [hAb.1]
  have hA_hi : asPoly cexT ≤
      asPoly (2071974950189 / 2500000000000 : ℝ) + 8 / 10 ^ 12 := by
    linarith [hAb.2]
  have hA0 : (0:ℝ) ≤ asPoly (2071974950189 / 2500000000000 : ℝ) - 8 / 10 ^ 12 := by
    norm_num [asPoly]
  have hE0 : (0:ℝ) ≤ 134378913741 / 200000000000 := by norm_num
  constructor
  · calc (37245 / 100000 : ℝ) ≤
        (asPoly (2071974950189 / 2500000000000 : ℝ) - 8 / 10 ^ 12) *
          (134378913741 / 200000000000) := by norm_num [asPoly]
      _ ≤ asPoly cexT * Real.exp (-(4000 / 10059)) :=
          mul_le_mul hA_lo hE.1 hE0 (le_trans hA0 hA_lo)
  · calc asPoly cexT * Real.exp (-(4000 / 10059)) ≤
        (asPoly (2071974950189 / 2500000000000 : ℝ) + 8 / 10 ^ 12) *
          (134378913807 / 200000000000) :=
          mul_le_mul hA_hi hE.2 (Real.exp_pos _).le (by norm_num [asPoly])
      _ < (37255 / 100000 : ℝ) := by norm_num [asPoly]

/-- C6 counterexample: at `(38, 1000, 46, 1000)` — nonzero views, nonzero pooled
standard error — the returned `confidence` is *not*
`clamp((1 - returnedPValue) · 100, 0, 99.9)`: the p-value is `0.3724999…`, the
returned p-value is `0.3725`, the claimed confidence would be `62.75`, but the
returned confidence is a one-decimal rounding and hence a multiple of `0.1`. -/
theorem significance_rounded_confidence_counterexample :
    (1000 : ℕ) ≠ 0 ∧
    realOps.sqrt (seRadicand (α := ℝ) 38 1000 46 1000) ≠ 0 ∧
    ¬ ((calculateStatisticalSignificance realOps 38 1000 46 1000).confidence =
      min (999 / 10) (max 0
        ((1 - (calculateStatisticalSignificance realOps 38 1000 46 1000).pValue) *
          100))) := by
  refine ⟨by norm_num, cex_sqrt_rad_ne, ?_⟩
  intro heq
  rw [calcSig_main_branch realOps 38 1000 46 1000 (by norm_num) (by norm_num)
    cex_sqrt_rad_ne] at heq
  have hp := cex_p_bounds
  have hfloor : ⌊rawPValue realOps 38 1000 46 1000 * 10000 + 1 / 2⌋ = (3725 : ℤ) := by
    apply Int.floor_eq_iff.mpr
    constructor
    · push_cast
      nlinarith [hp.1]
    · push_cast
      nlinarith [hp.2]
  have hpv4 : jsRound (10000 : ℝ) (rawPValue realOps 38 1000 46 1000) =
      3725 / 10000 := by
    unfold jsRound
    rw [if_neg (by push_neg; nlinarith [hp.1])]
    rw [hfloor]
    norm_num
  simp only [hpv4] at heq
  rw [show min (999 / 10 : ℝ) (max 0 ((1 - 3725 / 10000) * 100)) = 251 / 4 by
    norm_num] at heq
  have hX0 : (0:ℝ) ≤ min (999 / 10) (max 0
      ((1 - rawPValue realOps 38 1000 46 1000) * 100)) :=
    le_min (by norm_num) (le_max_left 0 _)
  unfold jsRound at heq
  rw [if_neg (not_lt.mpr hX0)] at heq
  have hint : ((2 * ⌊min (999 / 10 : ℝ) (max 0
      ((1 - rawPValue realOps 38 1000 46 1000) * 100)) * 10 + 1 / 2⌋ : ℤ) : ℝ) =
      1255 := by
    push_cast
    linarith [heq]
  have hint2 : (2 * ⌊min (999 / 10 : ℝ) (max 0
      ((1 - rawPValue realOps 38 1000 46 1000) * 100)) * 10 + 1 / 2⌋ : ℤ) = 1255 := by
    exact_mod_cast hint
  omega

end Tolstoy
